import Mathlib

/-!
# Verification of the RemoteMemorySync engine

A shallow embedding of `src/services/sync/RemoteMemorySync.ts` (and the small
backend wrapper `AzureCosmosRemoteStore.ts`) of the claude-mem-cosmos-db
repository, together with proofs and refutations of the frozen claims about
its specification.

Conventions of the embedding:
* SQLite tables become Lean lists of row structures; `SELECT ... LIMIT 1`
  becomes `List.find?` (first match), `INSERT` appends at the end of the list,
  and `UPDATE ... WHERE id = existing.id` replaces the row that the preceding
  `find?` selected (SQLite row ids are the unique primary key, so the update
  targets exactly that row).
* JavaScript `a || b` and `a ?? b` become the explicit helpers `jsOrString`,
  `jsOrOptString`, `jsOrInt`, `jsNullish` below (empty string and zero are
  falsy for `||`; only `null`/`undefined` select the right operand of `??`).
* JS epochs are `Int` (milliseconds), SQLite row ids are `Nat`.
* `createHash('sha256')...digest('hex')` is an opaque deterministic function
  of its input string supplied by the node crypto library (outside this
  repository); it is modelled as an arbitrary function `hash : String → String`
  that the definitions take as an explicit argument.
* Asynchronous backend calls that may reject become `Except Unit` values; a
  thrown exception aborts the surrounding control flow exactly where `await`
  would rethrow it.
-/

/-- JS `a || b` for non-nullable strings: `''` is falsy. -/
def jsOrString (a b : String) : String :=
  if a = "" then b else a

/-- JS `a || b` for `string | null` values: `null` and `''` are falsy. -/
def jsOrOptString (a b : Option String) : Option String :=
  match a with
  | none => b
  | some s => if s = "" then b else a

/-- JS `a || b` for numbers: `0` is falsy. -/
def jsOrInt (a b : Int) : Int :=
  if a = 0 then b else a

/-- JS `a ?? b`: only `null`/`undefined` (modelled as `none`) select `b`. -/
def jsNullish {α : Type} (a b : Option α) : Option α :=
  match a with
  | none => b
  | some _ => a

/-- JS truthiness of a `string | null` value: `null` and `''` are falsy. -/
def jsTruthyOptString (a : Option String) : Bool :=
  match a with
  | none => false
  | some s => s != ""

/-- Payload of a `session` document (interface `RemoteSessionPayload`). -/
structure RemoteSessionPayload where
  content_session_id : String
  memory_session_id : Option String
  project : String
  user_prompt : Option String
  custom_title : Option String
  started_at : String
  started_at_epoch : Int
  completed_at : Option String
  completed_at_epoch : Option Int
  status : String
deriving DecidableEq

/-- Payload of a `prompt` document (interface `RemotePromptPayload`). -/
structure RemotePromptPayload where
  content_session_id : String
  project : String
  prompt_number : Int
  prompt_text : String
  created_at : String
  created_at_epoch : Int
deriving DecidableEq

/-- Payload of an `observation` document (interface `RemoteObservationPayload`). -/
structure RemoteObservationPayload where
  memory_session_id : String
  project : String
  text : Option String
  type : String
  title : Option String
  subtitle : Option String
  facts : Option String
  narrative : Option String
  concepts : Option String
  files_read : Option String
  files_modified : Option String
  prompt_number : Option Int
  discovery_tokens : Int
  created_at : String
  created_at_epoch : Int
deriving DecidableEq

/-- Payload of a `summary` document (interface `RemoteSummaryPayload`). -/
structure RemoteSummaryPayload where
  memory_session_id : String
  project : String
  request : Option String
  investigated : Option String
  learned : Option String
  completed : Option String
  next_steps : Option String
  files_read : Option String
  files_edited : Option String
  notes : Option String
  prompt_number : Option Int
  discovery_tokens : Int
  created_at : String
  created_at_epoch : Int
deriving DecidableEq

/-- The tagged payload of a remote memory document; the wire `kind` field is
the tag of this sum. -/
inductive RemoteDocPayload where
  | session (payload : RemoteSessionPayload)
  | prompt (payload : RemotePromptPayload)
  | observation (payload : RemoteObservationPayload)
  | summary (payload : RemoteSummaryPayload)
deriving DecidableEq

/-- The on-the-wire document (`RemoteMemoryBaseDocument`). -/
structure RemoteMemoryDocument where
  id : String
  sortEpoch : Int
  updatedAtEpoch : Int
  payload : RemoteDocPayload
deriving DecidableEq

/-- The wire `kind` discriminant of a document. -/
def RemoteMemoryDocument.kind (d : RemoteMemoryDocument) : String :=
  match d.payload with
  | .session _ => "session"
  | .prompt _ => "prompt"
  | .observation _ => "observation"
  | .summary _ => "summary"

def isSessionDoc (d : RemoteMemoryDocument) : Bool := d.kind == "session"

def isPromptDoc (d : RemoteMemoryDocument) : Bool := d.kind == "prompt"

def isObservationDoc (d : RemoteMemoryDocument) : Bool := d.kind == "observation"

def isSummaryDoc (d : RemoteMemoryDocument) : Bool := d.kind == "summary"

/-- A row of the local `sdk_sessions` table (`LocalSessionRow`). -/
structure SessionRow where
  rowId : Nat
  content_session_id : String
  memory_session_id : Option String
  project : String
  user_prompt : Option String
  custom_title : Option String
  started_at : String
  started_at_epoch : Int
  completed_at : Option String
  completed_at_epoch : Option Int
  status : String
deriving DecidableEq

/-- A stored row of the local `user_prompts` table (`project` is not a column
of this table; the readers join it in from `sdk_sessions`). -/
structure PromptRow where
  rowId : Nat
  content_session_id : String
  prompt_number : Int
  prompt_text : String
  created_at : String
  created_at_epoch : Int
deriving DecidableEq

/-- A row of the local `observations` table (`LocalObservationRow`);
`discovery_tokens` may be NULL in the store, hence `Option Int`. -/
structure ObservationRow where
  rowId : Nat
  memory_session_id : String
  project : String
  text : Option String
  type : String
  title : Option String
  subtitle : Option String
  facts : Option String
  narrative : Option String
  concepts : Option String
  files_read : Option String
  files_modified : Option String
  prompt_number : Option Int
  discovery_tokens : Option Int
  created_at : String
  created_at_epoch : Int
deriving DecidableEq

/-- A row of the local `session_summaries` table (`LocalSummaryRow`). -/
structure SummaryRow where
  rowId : Nat
  memory_session_id : String
  project : String
  request : Option String
  investigated : Option String
  learned : Option String
  completed : Option String
  next_steps : Option String
  files_read : Option String
  files_edited : Option String
  notes : Option String
  prompt_number : Option Int
  discovery_tokens : Option Int
  created_at : String
  created_at_epoch : Int
deriving DecidableEq

/-- The local SQLite store (`RemoteSyncStore.db`), one list per table. -/
structure LocalDb where
  sdk_sessions : List SessionRow
  user_prompts : List PromptRow
  observations : List ObservationRow
  session_summaries : List SummaryRow
deriving DecidableEq

/-- A fresh SQLite row id: one more than the largest id in use. -/
def freshRowId (ids : List Nat) : Nat :=
  ids.foldl max 0 + 1

/-- Replace the first element satisfying `q` (the row an `UPDATE` keyed on the
primary key of a preceding `SELECT ... LIMIT 1` rewrites). -/
def replaceFirst {α : Type} (q : α → Bool) (v : α) : List α → List α
  | [] => []
  | x :: xs => if q x then v :: xs else x :: replaceFirst q v xs

/-- Does a session row match a `content_session_id` equality predicate? -/
def sessionContentMatch (c : String) (r : SessionRow) : Bool :=
  r.content_session_id == c

/-- `selectSessionStatus`: the priority table `active < failed < completed`
with unknown statuses at priority 0; the incoming status wins on `≥`. -/
def statusPriorityOf (s : String) : Int :=
  if s = "active" then 0
  else if s = "failed" then 1
  else if s = "completed" then 2
  else 0

def selectSessionStatus (currentStatus incomingStatus : String) : String :=
  if statusPriorityOf incomingStatus ≥ statusPriorityOf currentStatus
  then incomingStatus else currentStatus

/-- `resolveImportedMemorySessionId` on the `sdk_sessions` table: a falsy
incoming id keeps the existing binding; a conflicting one (bound to a
different `content_session_id`) is dropped with a warning, keeping the
existing binding (or null); otherwise the incoming id is adopted. -/
def resolveImportedMemorySessionId (rows : List SessionRow)
    (session : RemoteSessionPayload) (existing : Option SessionRow) :
    Option String :=
  if jsTruthyOptString session.memory_session_id = false then
    existing.bind (fun r => r.memory_session_id)
  else
    match rows.find? (fun r =>
        r.memory_session_id == session.memory_session_id &&
        r.content_session_id != session.content_session_id) with
    | some _ => existing.bind (fun r => r.memory_session_id)
    | none => session.memory_session_id

/-- The merged row `nextValues` that `upsertSession` computes for an existing
row, including the resolved `memory_session_id`. -/
def mergeSessionRow (rows : List SessionRow) (session : RemoteSessionPayload)
    (existing : SessionRow) : SessionRow :=
  { existing with
    memory_session_id := resolveImportedMemorySessionId rows session (some existing)
    project := jsOrString session.project existing.project
    user_prompt := jsOrOptString session.user_prompt existing.user_prompt
    custom_title := jsNullish session.custom_title existing.custom_title
    started_at := jsOrString existing.started_at session.started_at
    started_at_epoch := jsOrInt existing.started_at_epoch session.started_at_epoch
    completed_at := jsNullish session.completed_at existing.completed_at
    completed_at_epoch := jsNullish session.completed_at_epoch existing.completed_at_epoch
    status := selectSessionStatus existing.status session.status }

/-- The `changed` disjunction of `upsertSession`, field by field as in the
source. -/
def sessionChanged (next existing : SessionRow) : Bool :=
  next.memory_session_id != existing.memory_session_id ||
  next.project != existing.project ||
  next.user_prompt != existing.user_prompt ||
  next.custom_title != existing.custom_title ||
  next.started_at != existing.started_at ||
  next.started_at_epoch != existing.started_at_epoch ||
  next.completed_at != existing.completed_at ||
  next.completed_at_epoch != existing.completed_at_epoch ||
  next.status != existing.status

/-- The row the session INSERT writes: `user_prompt` null-coalesced to the
empty string, `memory_session_id` resolved by the conflict policy. -/
def insertedSessionRow (rows : List SessionRow) (session : RemoteSessionPayload) :
    SessionRow :=
  { rowId := freshRowId (rows.map (fun r => r.rowId))
    content_session_id := session.content_session_id
    memory_session_id := resolveImportedMemorySessionId rows session none
    project := session.project
    user_prompt := some (session.user_prompt.getD "")
    custom_title := session.custom_title
    started_at := session.started_at
    started_at_epoch := session.started_at_epoch
    completed_at := session.completed_at
    completed_at_epoch := session.completed_at_epoch
    status := session.status }

/-- `upsertSession` restricted to the only table it reads and writes. -/
def upsertSessionRows (rows : List SessionRow) (session : RemoteSessionPayload) :
    Bool × List SessionRow :=
  match rows.find? (sessionContentMatch session.content_session_id) with
  | none => (true, rows ++ [insertedSessionRow rows session])
  | some existing =>
      let next := mergeSessionRow rows session existing
      if sessionChanged next existing then
        (true, replaceFirst (sessionContentMatch session.content_session_id) next rows)
      else
        (false, rows)

/-- `upsertSession` on the whole store. -/
def upsertSession (db : LocalDb) (session : RemoteSessionPayload) :
    Bool × LocalDb :=
  let r := upsertSessionRows db.sdk_sessions session
  (r.1, { db with sdk_sessions := r.2 })

/-- Does a prompt row match the `(content_session_id, prompt_number)` key? -/
def promptKeyMatch (c : String) (n : Int) (r : PromptRow) : Bool :=
  r.content_session_id == c && r.prompt_number == n

/-- The row the prompt INSERT writes. -/
def insertedPromptRow (prompts : List PromptRow) (prompt : RemotePromptPayload) :
    PromptRow :=
  { rowId := freshRowId (prompts.map (fun r => r.rowId))
    content_session_id := prompt.content_session_id
    prompt_number := prompt.prompt_number
    prompt_text := prompt.prompt_text
    created_at := prompt.created_at
    created_at_epoch := prompt.created_at_epoch }

/-- `upsertPrompt`: skip when the `(content_session_id, prompt_number)` key
exists, skip with a warning when the owning session is missing, insert
otherwise. -/
def upsertPrompt (db : LocalDb) (prompt : RemotePromptPayload) :
    Bool × LocalDb :=
  match db.user_prompts.find? (promptKeyMatch prompt.content_session_id prompt.prompt_number) with
  | some _ => (false, db)
  | none =>
      match db.sdk_sessions.find? (sessionContentMatch prompt.content_session_id) with
      | none => (false, db)
      | some _ =>
          (true, { db with user_prompts :=
            db.user_prompts ++ [insertedPromptRow db.user_prompts prompt] })

/-- Does a session row bind the given (non-null) `memory_session_id`? -/
def sessionMemoryMatch (m : String) (r : SessionRow) : Bool :=
  r.memory_session_id == some m

/-- The observation import dedup key
`(memory_session_id, created_at_epoch, type, COALESCE(title,''), COALESCE(narrative,''))`. -/
def observationDedupMatch (o : RemoteObservationPayload) (r : ObservationRow) : Bool :=
  r.memory_session_id == o.memory_session_id &&
  r.created_at_epoch == o.created_at_epoch &&
  r.type == o.type &&
  (r.title.getD "") == (o.title.getD "") &&
  (r.narrative.getD "") == (o.narrative.getD "")

/-- The row the observation INSERT writes (`discovery_tokens || 0`). -/
def insertedObservationRow (rows : List ObservationRow)
    (o : RemoteObservationPayload) : ObservationRow :=
  { rowId := freshRowId (rows.map (fun r => r.rowId))
    memory_session_id := o.memory_session_id
    project := o.project
    text := o.text
    type := o.type
    title := o.title
    subtitle := o.subtitle
    facts := o.facts
    narrative := o.narrative
    concepts := o.concepts
    files_read := o.files_read
    files_modified := o.files_modified
    prompt_number := o.prompt_number
    discovery_tokens := some (jsOrInt o.discovery_tokens 0)
    created_at := o.created_at
    created_at_epoch := o.created_at_epoch }

/-- `upsertObservation`: skip with a warning when no session binds the
`memory_session_id`, skip when the dedup key exists, insert otherwise. -/
def upsertObservation (db : LocalDb) (o : RemoteObservationPayload) :
    Bool × LocalDb :=
  match db.sdk_sessions.find? (sessionMemoryMatch o.memory_session_id) with
  | none => (false, db)
  | some _ =>
      match db.observations.find? (observationDedupMatch o) with
      | some _ => (false, db)
      | none =>
          (true, { db with observations :=
            db.observations ++ [insertedObservationRow db.observations o] })

/-- The summary import dedup key
`(memory_session_id, created_at_epoch, COALESCE(prompt_number,-1))`. -/
def summaryDedupMatch (s : RemoteSummaryPayload) (r : SummaryRow) : Bool :=
  r.memory_session_id == s.memory_session_id &&
  r.created_at_epoch == s.created_at_epoch &&
  (r.prompt_number.getD (-1)) == (s.prompt_number.getD (-1))

/-- The row the summary INSERT writes (`discovery_tokens || 0`). -/
def insertedSummaryRow (rows : List SummaryRow) (s : RemoteSummaryPayload) :
    SummaryRow :=
  { rowId := freshRowId (rows.map (fun r => r.rowId))
    memory_session_id := s.memory_session_id
    project := s.project
    request := s.request
    investigated := s.investigated
    learned := s.learned
    completed := s.completed
    next_steps := s.next_steps
    files_read := s.files_read
    files_edited := s.files_edited
    notes := s.notes
    prompt_number := s.prompt_number
    discovery_tokens := some (jsOrInt s.discovery_tokens 0)
    created_at := s.created_at
    created_at_epoch := s.created_at_epoch }

/-- `upsertSummary`: same shape as `upsertObservation` with its own dedup key. -/
def upsertSummary (db : LocalDb) (s : RemoteSummaryPayload) :
    Bool × LocalDb :=
  match db.sdk_sessions.find? (sessionMemoryMatch s.memory_session_id) with
  | none => (false, db)
  | some _ =>
      match db.session_summaries.find? (summaryDedupMatch s) with
      | some _ => (false, db)
      | none =>
          (true, { db with session_summaries :=
            db.session_summaries ++ [insertedSummaryRow db.session_summaries s] })

/-- One step of the import loop: dispatch on the document kind, count a write
when the upsert reports a change. -/
def importStep (db : LocalDb) (d : RemoteMemoryDocument) : Bool × LocalDb :=
  match d.payload with
  | .session p => upsertSession db p
  | .prompt p => upsertPrompt db p
  | .observation p => upsertObservation db p
  | .summary p => upsertSummary db p

/-- The import loop over an already ordered batch, returning the number of
rows written and the final store. -/
def runDocs : LocalDb → List RemoteMemoryDocument → Nat × LocalDb
  | db, [] => (0, db)
  | db, d :: rest =>
      let r := importStep db d
      let t := runDocs r.2 rest
      ((if r.1 then 1 else 0) + t.1, t.2)

/-- The referential re-ordering of a batch: sessions, then prompts, then
observations, then summaries. -/
def orderDocuments (documents : List RemoteMemoryDocument) :
    List RemoteMemoryDocument :=
  documents.filter isSessionDoc ++ documents.filter isPromptDoc ++
  documents.filter isObservationDoc ++ documents.filter isSummaryDoc

/-- `importRemoteDocuments`: re-order the batch and apply it in one atomic
transaction, returning the count of rows actually written. -/
def importRemoteDocuments (db : LocalDb) (documents : List RemoteMemoryDocument) :
    Nat × LocalDb :=
  runDocs db (orderDocuments documents)

/-- A prompt row as returned by the local readers: the stored columns joined
with `COALESCE(project, '')` from `sdk_sessions` (`LocalPromptRow`). -/
structure LocalPromptRow where
  rowId : Nat
  content_session_id : String
  project : String
  prompt_number : Int
  prompt_text : String
  created_at : String
  created_at_epoch : Int
deriving DecidableEq

/-- The `LEFT JOIN sdk_sessions USING (content_session_id)` of the prompt
readers, filling `project` with `''` when no session row matches. -/
def joinedPromptRow (db : LocalDb) (r : PromptRow) : LocalPromptRow :=
  { rowId := r.rowId
    content_session_id := r.content_session_id
    project :=
      match db.sdk_sessions.find? (sessionContentMatch r.content_session_id) with
      | some s => s.project
      | none => ""
    prompt_number := r.prompt_number
    prompt_text := r.prompt_text
    created_at := r.created_at
    created_at_epoch := r.created_at_epoch }

/-- `ORDER BY <key> ASC` over a table (a stable sort; SQLite leaves the
relative order of equal keys unspecified, and nothing downstream depends on
it). -/
def sortRowsBy {α : Type} (key : α → Int) (l : List α) : List α :=
  l.insertionSort (fun a b => key a ≤ key b)

def getAllSessions (db : LocalDb) : List SessionRow :=
  sortRowsBy (fun r => r.started_at_epoch) db.sdk_sessions

def getAllPrompts (db : LocalDb) : List LocalPromptRow :=
  (sortRowsBy (fun r => r.created_at_epoch) db.user_prompts).map (joinedPromptRow db)

def getAllObservations (db : LocalDb) : List ObservationRow :=
  sortRowsBy (fun r => r.created_at_epoch) db.observations

def getAllSummaries (db : LocalDb) : List SummaryRow :=
  sortRowsBy (fun r => r.created_at_epoch) db.session_summaries

def getPromptsSince (db : LocalDb) (sinceEpoch : Int) : List LocalPromptRow :=
  (sortRowsBy (fun r => r.created_at_epoch)
    (db.user_prompts.filter (fun r => decide (r.created_at_epoch ≥ sinceEpoch)))).map
    (joinedPromptRow db)

def getObservationsSince (db : LocalDb) (sinceEpoch : Int) : List ObservationRow :=
  sortRowsBy (fun r => r.created_at_epoch)
    (db.observations.filter (fun r => decide (r.created_at_epoch ≥ sinceEpoch)))

def getSummariesSince (db : LocalDb) (sinceEpoch : Int) : List SummaryRow :=
  sortRowsBy (fun r => r.created_at_epoch)
    (db.session_summaries.filter (fun r => decide (r.created_at_epoch ≥ sinceEpoch)))

def getSessionByContentSessionId (db : LocalDb) (contentSessionId : String) :
    Option SessionRow :=
  db.sdk_sessions.find? (sessionContentMatch contentSessionId)

def getSessionByMemorySessionId (db : LocalDb) (memorySessionId : String) :
    Option SessionRow :=
  db.sdk_sessions.find? (sessionMemoryMatch memorySessionId)

def getPromptById (db : LocalDb) (promptId : Nat) : Option LocalPromptRow :=
  (db.user_prompts.find? (fun r => r.rowId == promptId)).map (joinedPromptRow db)

def getObservationById (db : LocalDb) (observationId : Nat) : Option ObservationRow :=
  db.observations.find? (fun r => r.rowId == observationId)

def getSummaryById (db : LocalDb) (summaryId : Nat) : Option SummaryRow :=
  db.session_summaries.find? (fun r => r.rowId == summaryId)

/-- JS `value || 0` on a possibly-NULL numeric column. -/
def jsNumOrZero (a : Option Int) : Int :=
  match a with
  | none => 0
  | some n => jsOrInt n 0

/-- One hex digit, lower case, as `JSON.stringify`'s `\u` escapes print it. -/
def hexDigit (n : Nat) : Char :=
  if n < 10 then Char.ofNat (48 + n) else Char.ofNat (87 + (n % 16))

def hex4 (n : Nat) : String :=
  String.mk [hexDigit (n / 4096 % 16), hexDigit (n / 256 % 16),
             hexDigit (n / 16 % 16), hexDigit (n % 16)]

/-- `JSON.stringify` escaping of a single character of a string value. -/
def jsonEscapeChar (c : Char) : String :=
  if c = '"' then "\\\""
  else if c = '\\' then "\\\\"
  else if c = '\n' then "\\n"
  else if c = '\r' then "\\r"
  else if c = '\t' then "\\t"
  else if c = Char.ofNat 8 then "\\b"
  else if c = Char.ofNat 12 then "\\f"
  else if c.toNat < 32 then "\\u" ++ hex4 c.toNat
  else String.singleton c

/-- `JSON.stringify` of a string value. -/
def jsonQuote (s : String) : String :=
  "\"" ++ String.join (s.data.map jsonEscapeChar) ++ "\""

def jsonOptString (a : Option String) : String :=
  match a with
  | none => "null"
  | some s => jsonQuote s

def jsonInt (n : Int) : String := toString n

def jsonOptInt (a : Option Int) : String :=
  match a with
  | none => "null"
  | some n => jsonInt n

/-- `JSON.stringify` of an observation payload: keys in the insertion order of
`buildObservationDocument`'s object literal. -/
def serializeObservationPayload (p : RemoteObservationPayload) : String :=
  "\x7b\"memory_session_id\":" ++ jsonQuote p.memory_session_id ++
  ",\"project\":" ++ jsonQuote p.project ++
  ",\"text\":" ++ jsonOptString p.text ++
  ",\"type\":" ++ jsonQuote p.type ++
  ",\"title\":" ++ jsonOptString p.title ++
  ",\"subtitle\":" ++ jsonOptString p.subtitle ++
  ",\"facts\":" ++ jsonOptString p.facts ++
  ",\"narrative\":" ++ jsonOptString p.narrative ++
  ",\"concepts\":" ++ jsonOptString p.concepts ++
  ",\"files_read\":" ++ jsonOptString p.files_read ++
  ",\"files_modified\":" ++ jsonOptString p.files_modified ++
  ",\"prompt_number\":" ++ jsonOptInt p.prompt_number ++
  ",\"discovery_tokens\":" ++ jsonInt p.discovery_tokens ++
  ",\"created_at\":" ++ jsonQuote p.created_at ++
  ",\"created_at_epoch\":" ++ jsonInt p.created_at_epoch ++ "\x7d"

/-- `JSON.stringify` of a summary payload: keys in the insertion order of
`buildSummaryDocument`'s object literal. -/
def serializeSummaryPayload (p : RemoteSummaryPayload) : String :=
  "\x7b\"memory_session_id\":" ++ jsonQuote p.memory_session_id ++
  ",\"project\":" ++ jsonQuote p.project ++
  ",\"request\":" ++ jsonOptString p.request ++
  ",\"investigated\":" ++ jsonOptString p.investigated ++
  ",\"learned\":" ++ jsonOptString p.learned ++
  ",\"completed\":" ++ jsonOptString p.completed ++
  ",\"next_steps\":" ++ jsonOptString p.next_steps ++
  ",\"files_read\":" ++ jsonOptString p.files_read ++
  ",\"files_edited\":" ++ jsonOptString p.files_edited ++
  ",\"notes\":" ++ jsonOptString p.notes ++
  ",\"prompt_number\":" ++ jsonOptInt p.prompt_number ++
  ",\"discovery_tokens\":" ++ jsonInt p.discovery_tokens ++
  ",\"created_at\":" ++ jsonQuote p.created_at ++
  ",\"created_at_epoch\":" ++ jsonInt p.created_at_epoch ++ "\x7d"

/-- `buildHashDocumentId`: kind prefix plus the digest of the serialized
payload. `hash` stands for SHA-256 hex from the node crypto library. -/
def buildHashDocumentId (hash : String → String) (kind : String)
    (payloadJson : String) : String :=
  kind ++ ":" ++ hash payloadJson

def getSessionStableUpdatedEpoch (s : SessionRow) : Int :=
  max s.started_at_epoch (s.completed_at_epoch.getD 0)

def sessionPayloadOfRow (s : SessionRow) : RemoteSessionPayload :=
  { content_session_id := s.content_session_id
    memory_session_id := s.memory_session_id
    project := s.project
    user_prompt := s.user_prompt
    custom_title := s.custom_title
    started_at := s.started_at
    started_at_epoch := s.started_at_epoch
    completed_at := s.completed_at
    completed_at_epoch := s.completed_at_epoch
    status := s.status }

/-- `buildSessionDocument`: natural id, optionally bumped `updatedAtEpoch`. -/
def buildSessionDocument (s : SessionRow) (updatedAtEpoch : Option Int) :
    RemoteMemoryDocument :=
  { id := "session:" ++ s.content_session_id
    sortEpoch := s.started_at_epoch
    updatedAtEpoch := updatedAtEpoch.getD (getSessionStableUpdatedEpoch s)
    payload := .session (sessionPayloadOfRow s) }

/-- `buildPromptDocument`: natural id from the `(content_session_id,
prompt_number)` pair, no hashing. -/
def buildPromptDocument (p : LocalPromptRow) : RemoteMemoryDocument :=
  { id := "prompt:" ++ p.content_session_id ++ ":" ++ toString p.prompt_number
    sortEpoch := p.created_at_epoch
    updatedAtEpoch := p.created_at_epoch
    payload := .prompt {
      content_session_id := p.content_session_id
      project := p.project
      prompt_number := p.prompt_number
      prompt_text := p.prompt_text
      created_at := p.created_at
      created_at_epoch := p.created_at_epoch } }

/-- The normalized observation payload (`discovery_tokens || 0`). -/
def observationPayloadOfRow (o : ObservationRow) : RemoteObservationPayload :=
  { memory_session_id := o.memory_session_id
    project := o.project
    text := o.text
    type := o.type
    title := o.title
    subtitle := o.subtitle
    facts := o.facts
    narrative := o.narrative
    concepts := o.concepts
    files_read := o.files_read
    files_modified := o.files_modified
    prompt_number := o.prompt_number
    discovery_tokens := jsNumOrZero o.discovery_tokens
    created_at := o.created_at
    created_at_epoch := o.created_at_epoch }

/-- `buildObservationDocument`: content-hash id over the normalized payload. -/
def buildObservationDocument (hash : String → String) (o : ObservationRow) :
    RemoteMemoryDocument :=
  let payload := observationPayloadOfRow o
  { id := buildHashDocumentId hash "observation" (serializeObservationPayload payload)
    sortEpoch := o.created_at_epoch
    updatedAtEpoch := o.created_at_epoch
    payload := .observation payload }

/-- The normalized summary payload (`discovery_tokens || 0`). -/
def summaryPayloadOfRow (s : SummaryRow) : RemoteSummaryPayload :=
  { memory_session_id := s.memory_session_id
    project := s.project
    request := s.request
    investigated := s.investigated
    learned := s.learned
    completed := s.completed
    next_steps := s.next_steps
    files_read := s.files_read
    files_edited := s.files_edited
    notes := s.notes
    prompt_number := s.prompt_number
    discovery_tokens := jsNumOrZero s.discovery_tokens
    created_at := s.created_at
    created_at_epoch := s.created_at_epoch }

/-- `buildSummaryDocument`: content-hash id over the normalized payload. -/
def buildSummaryDocument (hash : String → String) (s : SummaryRow) :
    RemoteMemoryDocument :=
  let payload := summaryPayloadOfRow s
  { id := buildHashDocumentId hash "summary" (serializeSummaryPayload payload)
    sortEpoch := s.created_at_epoch
    updatedAtEpoch := s.created_at_epoch
    payload := .summary payload }

/-- `addDocument` on the insertion-ordered map (a JS `Map` keyed by id):
replace when there is no entry or the entry's epoch is dominated. -/
def addDocument (documents : List (String × RemoteMemoryDocument))
    (document : RemoteMemoryDocument) : List (String × RemoteMemoryDocument) :=
  match documents.find? (fun kv => kv.1 == document.id) with
  | none => documents ++ [(document.id, document)]
  | some existing =>
      if existing.2.updatedAtEpoch ≤ document.updatedAtEpoch then
        documents.map (fun kv => if kv.1 == document.id then (document.id, document) else kv)
      else
        documents

/-- The comparator of `sortDocuments`: ascending `(updatedAtEpoch, id)`
(`localeCompare` modelled as code-point order). -/
def docLe (l r : RemoteMemoryDocument) : Bool :=
  decide (l.updatedAtEpoch < r.updatedAtEpoch) ||
  (l.updatedAtEpoch == r.updatedAtEpoch && decide (l.id ≤ r.id))

/-- `sortDocuments`: the map's values sorted by the comparator. The map's
keys are distinct, so the comparator never ties and every sorting algorithm
yields the same list as the JS `Array.sort`. -/
def sortDocuments (documents : List (String × RemoteMemoryDocument)) :
    List RemoteMemoryDocument :=
  (documents.map (fun kv => kv.2)).insertionSort (fun l r => docLe l r = true)

def getMaxUpdatedEpoch (documents : List RemoteMemoryDocument) : Int :=
  documents.foldl (fun maxEpoch document => max maxEpoch document.updatedAtEpoch) 0

/-- The sequence of `addDocument` calls of `collectPromptDocuments`: each
prompt document plus the piggybacked session document with the bumped epoch. -/
def promptAdds (db : LocalDb) (prompts : List LocalPromptRow) :
    List RemoteMemoryDocument :=
  prompts.flatMap (fun prompt =>
    [buildPromptDocument prompt] ++
    (match getSessionByContentSessionId db prompt.content_session_id with
     | some session => [buildSessionDocument session (some prompt.created_at_epoch)]
     | none => []))

def collectPromptDocuments (db : LocalDb) (prompts : List LocalPromptRow) :
    List RemoteMemoryDocument :=
  sortDocuments ((promptAdds db prompts).foldl addDocument [])

/-- The `addDocument` sequence of `collectObservationDocuments`. -/
def observationAdds (hash : String → String) (db : LocalDb)
    (observations : List ObservationRow) : List RemoteMemoryDocument :=
  observations.flatMap (fun o =>
    [buildObservationDocument hash o] ++
    (match getSessionByMemorySessionId db o.memory_session_id with
     | some session => [buildSessionDocument session (some o.created_at_epoch)]
     | none => []))

def collectObservationDocuments (hash : String → String) (db : LocalDb)
    (observations : List ObservationRow) : List RemoteMemoryDocument :=
  sortDocuments ((observationAdds hash db observations).foldl addDocument [])

/-- The `addDocument` sequence of `collectSummaryDocuments`. -/
def summaryAdds (hash : String → String) (db : LocalDb)
    (summaries : List SummaryRow) : List RemoteMemoryDocument :=
  summaries.flatMap (fun s =>
    [buildSummaryDocument hash s] ++
    (match getSessionByMemorySessionId db s.memory_session_id with
     | some session => [buildSessionDocument session (some s.created_at_epoch)]
     | none => []))

def collectSummaryDocuments (hash : String → String) (db : LocalDb)
    (summaries : List SummaryRow) : List RemoteMemoryDocument :=
  sortDocuments ((summaryAdds hash db summaries).foldl addDocument [])

/-- The `addDocument` sequence of `collectBootstrapDocuments`: every session,
then the document sets of every prompt, observation and summary. -/
def bootstrapAdds (hash : String → String) (db : LocalDb) :
    List RemoteMemoryDocument :=
  (getAllSessions db).map (fun s => buildSessionDocument s none) ++
  (getAllPrompts db).flatMap (fun p => collectPromptDocuments db [p]) ++
  (getAllObservations db).flatMap (fun o => collectObservationDocuments hash db [o]) ++
  (getAllSummaries db).flatMap (fun s => collectSummaryDocuments hash db [s])

def collectBootstrapDocuments (hash : String → String) (db : LocalDb) :
    List RemoteMemoryDocument :=
  sortDocuments ((bootstrapAdds hash db).foldl addDocument [])

/-- The `addDocument` sequence of `collectIncrementalDocuments`. -/
def incrementalAdds (hash : String → String) (db : LocalDb) (sinceEpoch : Int) :
    List RemoteMemoryDocument :=
  (getPromptsSince db sinceEpoch).flatMap (fun p => collectPromptDocuments db [p]) ++
  (getObservationsSince db sinceEpoch).flatMap
    (fun o => collectObservationDocuments hash db [o]) ++
  (getSummariesSince db sinceEpoch).flatMap
    (fun s => collectSummaryDocuments hash db [s])

def collectIncrementalDocuments (hash : String → String) (db : LocalDb)
    (sinceEpoch : Int) : List RemoteMemoryDocument :=
  sortDocuments ((incrementalAdds hash db sinceEpoch).foldl addDocument [])

/-- Per-target cursors (`RemoteSyncTargetState`). -/
structure RemoteSyncTargetState where
  bootstrapComplete : Bool
  lastLocalPushEpoch : Int
  lastPullEpoch : Int
deriving DecidableEq

def emptyTargetState : RemoteSyncTargetState :=
  { bootstrapComplete := false, lastLocalPushEpoch := 0, lastPullEpoch := 0 }

/-- The persisted state file (`RemoteSyncStateFile`), targets keyed by backend
fingerprint in insertion order. -/
structure RemoteSyncStateFile where
  version : Int
  targets : List (String × RemoteSyncTargetState)
deriving DecidableEq

def emptyStateFile : RemoteSyncStateFile :=
  { version := 1, targets := [] }

/-- `loadTargetState`: the entry for the fingerprint, or zeroed cursors. -/
def loadTargetState (file : RemoteSyncStateFile) (fingerprint : String) :
    RemoteSyncTargetState :=
  match file.targets.find? (fun kv => kv.1 == fingerprint) with
  | some kv => kv.2
  | none => emptyTargetState

/-- `saveTargetState`: overwrite the fingerprint's entry (in place) or append
it, then write the whole file. -/
def saveTargetState (file : RemoteSyncStateFile) (fingerprint : String)
    (targetState : RemoteSyncTargetState) : RemoteSyncStateFile :=
  let rewriteEntry := fun (kv : String × RemoteSyncTargetState) =>
    if kv.1 == fingerprint then (fingerprint, targetState) else kv
  if (file.targets.find? (fun kv => kv.1 == fingerprint)).isSome then
    { file with targets := file.targets.map rewriteEntry }
  else
    { file with targets := file.targets ++ [(fingerprint, targetState)] }

/-- The abstract remote backend of one cycle: an identity fingerprint and the
outcome of each operation. `upsertResult` is indexed by the position of the
upsert call within the cycle, so that a backend that fails once and then
recovers can be described. -/
structure BackendBehavior where
  targetFingerprint : String
  initResult : Except Unit Unit
  upsertResult : Nat → Except Unit Unit
  fetchResult : Int → Except Unit (List RemoteMemoryDocument)

/-- `pushDocuments`: empty batches return without touching the backend;
otherwise upsert, then reload the state file, raise `lastLocalPushEpoch` to
the batch maximum, and persist. Returns the new file, the next upsert call
index, and the trace of batches actually upserted. -/
def pushDocumentsStep (B : BackendBehavior) (callIdx : Nat)
    (file : RemoteSyncStateFile) (documents : List RemoteMemoryDocument) :
    Except Unit (RemoteSyncStateFile × Nat × List (List RemoteMemoryDocument)) :=
  if documents.isEmpty then .ok (file, callIdx, [])
  else
    match B.upsertResult callIdx with
    | .error e => .error e
    | .ok _ =>
        let st := loadTargetState file B.targetFingerprint
        let st1 := { st with
          lastLocalPushEpoch := max st.lastLocalPushEpoch (getMaxUpdatedEpoch documents) }
        .ok (saveTargetState file B.targetFingerprint st1, callIdx + 1, [documents])

/-- The observable result of one synchronization cycle: whether it completed,
the persisted state file and local store as left behind (also on abort), the
successfully upserted push batches, and the fetched documents. -/
structure SyncOutcome where
  ok : Bool
  file : RemoteSyncStateFile
  db : LocalDb
  pushed : List (List RemoteMemoryDocument)
  pulled : List RemoteMemoryDocument

def LOCAL_INCREMENTAL_OVERLAP_MS : Int := 5000

def REMOTE_INCREMENTAL_OVERLAP_MS : Int := 5000

/-- The pull phase and final state persist of `performSynchronization`. -/
def cyclePull (B : BackendBehavior) (db : LocalDb) (file : RemoteSyncStateFile)
    (st : RemoteSyncTargetState) (pushedAcc : List (List RemoteMemoryDocument)) :
    SyncOutcome :=
  let remoteSince := max 0 (st.lastPullEpoch - REMOTE_INCREMENTAL_OVERLAP_MS)
  match B.fetchResult remoteSince with
  | .error _ => { ok := false, file := file, db := db, pushed := pushedAcc, pulled := [] }
  | .ok remoteDocuments =>
      if remoteDocuments.isEmpty then
        { ok := true, file := saveTargetState file B.targetFingerprint st, db := db
          pushed := pushedAcc, pulled := remoteDocuments }
      else
        let imported := importRemoteDocuments db remoteDocuments
        let st1 := { st with
          lastPullEpoch := max st.lastPullEpoch (getMaxUpdatedEpoch remoteDocuments) }
        { ok := true, file := saveTargetState file B.targetFingerprint st1
          db := imported.2, pushed := pushedAcc, pulled := remoteDocuments }

/-- The incremental push phase of `performSynchronization`. -/
def cycleIncremental (hash : String → String) (B : BackendBehavior) (db : LocalDb)
    (file : RemoteSyncStateFile) (st : RemoteSyncTargetState)
    (pushedAcc : List (List RemoteMemoryDocument)) (callIdx : Nat) : SyncOutcome :=
  let localSince := max 0 (st.lastLocalPushEpoch - LOCAL_INCREMENTAL_OVERLAP_MS)
  let incrementalDocuments := collectIncrementalDocuments hash db localSince
  if incrementalDocuments.isEmpty then
    cyclePull B db file st pushedAcc
  else
    match pushDocumentsStep B callIdx file incrementalDocuments with
    | .error _ => { ok := false, file := file, db := db, pushed := pushedAcc, pulled := [] }
    | .ok out =>
        let st1 := { st with lastLocalPushEpoch := max st.lastLocalPushEpoch (getMaxUpdatedEpoch incrementalDocuments) }
        cyclePull B db out.1 st1 (pushedAcc ++ out.2.2)

/-- `performSynchronization`: initialize, conditional bootstrap push,
incremental push, pull and import, persist the target state. A rejected
backend call aborts the cycle, leaving the file and store as they were at
that point. -/
def performSynchronization (hash : String → String) (B : BackendBehavior)
    (db : LocalDb) (file : RemoteSyncStateFile) (bootstrapLocal : Bool) :
    SyncOutcome :=
  match B.initResult with
  | .error _ => { ok := false, file := file, db := db, pushed := [], pulled := [] }
  | .ok _ =>
      let st0 := loadTargetState file B.targetFingerprint
      if bootstrapLocal && !st0.bootstrapComplete then
        let bootstrapDocuments := collectBootstrapDocuments hash db
        match pushDocumentsStep B 0 file bootstrapDocuments with
        | .error _ => { ok := false, file := file, db := db, pushed := [], pulled := [] }
        | .ok out =>
            let st1 := { st0 with bootstrapComplete := true, lastLocalPushEpoch := max st0.lastLocalPushEpoch (getMaxUpdatedEpoch bootstrapDocuments) }
            cycleIncremental hash B db out.1 st1 out.2.2 out.2.1
      else
        cycleIncremental hash B db file st0 [] 0

/-- The observable result of an event-driven sync task. -/
structure TaskOutcome where
  ok : Bool
  file : RemoteSyncStateFile
  pushed : List (List RemoteMemoryDocument)

/-- The task body of `scheduleUserPromptSync`: look the prompt up, return
silently when it is gone, otherwise push its document set. -/
def runUserPromptSyncTask (B : BackendBehavior) (db : LocalDb)
    (file : RemoteSyncStateFile) (promptId : Nat) : TaskOutcome :=
  match getPromptById db promptId with
  | none => { ok := true, file := file, pushed := [] }
  | some prompt =>
      match pushDocumentsStep B 0 file (collectPromptDocuments db [prompt]) with
      | .error _ => { ok := false, file := file, pushed := [] }
      | .ok out => { ok := true, file := out.1, pushed := out.2.2 }

/-- The task body of `scheduleObservationSync`. -/
def runObservationSyncTask (hash : String → String) (B : BackendBehavior)
    (db : LocalDb) (file : RemoteSyncStateFile) (observationId : Nat) : TaskOutcome :=
  match getObservationById db observationId with
  | none => { ok := true, file := file, pushed := [] }
  | some observation =>
      match pushDocumentsStep B 0 file (collectObservationDocuments hash db [observation]) with
      | .error _ => { ok := false, file := file, pushed := [] }
      | .ok out => { ok := true, file := out.1, pushed := out.2.2 }

/-- The task body of `scheduleSummarySync`. -/
def runSummarySyncTask (hash : String → String) (B : BackendBehavior)
    (db : LocalDb) (file : RemoteSyncStateFile) (summaryId : Nat) : TaskOutcome :=
  match getSummaryById db summaryId with
  | none => { ok := true, file := file, pushed := [] }
  | some summary =>
      match pushDocumentsStep B 0 file (collectSummaryDocuments hash db [summary]) with
      | .error _ => { ok := false, file := file, pushed := [] }
      | .ok out => { ok := true, file := out.1, pushed := out.2.2 }

/-- What `loadStateFile` can observe about the file at its path: missing,
read failure, JSON parse failure, or a parsed object whose `version` field
(`none` when absent or non-numeric) and `targets` field (`none` when absent
or null) are inspected. -/
inductive RawStateFile where
  | missing
  | readFailed
  | parseFailed
  | parsed (version : Option Int)
      (targets : Option (List (String × RemoteSyncTargetState)))

/-- `loadStateFile`: every degenerate case, including exceptions caught from
the filesystem and the JSON parser, yields the empty versioned state. -/
def loadStateFile : RawStateFile → RemoteSyncStateFile
  | .missing => emptyStateFile
  | .readFailed => emptyStateFile
  | .parseFailed => emptyStateFile
  | .parsed version targets =>
      match targets with
      | none => emptyStateFile
      | some t =>
          if version = some 1 then { version := 1, targets := t }
          else emptyStateFile

/-- The spec's field-wise merge rules for an existing session row, written
from §4.5 of the specification; `resolvedMemorySessionId` is the outcome of
the §4.5.1 conflict policy. -/
def specSessionMerge (incoming : RemoteSessionPayload) (existing : SessionRow)
    (resolvedMemorySessionId : Option String) : SessionRow :=
  { existing with
    memory_session_id := resolvedMemorySessionId
    project := if incoming.project ≠ "" then incoming.project else existing.project
    user_prompt := if jsTruthyOptString incoming.user_prompt then incoming.user_prompt else existing.user_prompt
    custom_title := if incoming.custom_title.isSome then incoming.custom_title else existing.custom_title
    started_at := if existing.started_at ≠ "" then existing.started_at else incoming.started_at
    started_at_epoch := if existing.started_at_epoch ≠ 0 then existing.started_at_epoch else incoming.started_at_epoch
    completed_at := if incoming.completed_at.isSome then incoming.completed_at else existing.completed_at
    completed_at_epoch := if incoming.completed_at_epoch.isSome then incoming.completed_at_epoch else existing.completed_at_epoch
    status := if statusPriorityOf incoming.status ≥ statusPriorityOf existing.status then incoming.status else existing.status }

/-- Pairwise relation between distinct session rows demanded by the local
invariants: distinct `content_session_id` and no shared non-null
`memory_session_id`. -/
def SessRel (a b : SessionRow) : Prop :=
  a.content_session_id ≠ b.content_session_id ∧
  ∀ m, a.memory_session_id = some m → b.memory_session_id ≠ some m

/-- Pairwise relation between distinct prompt rows: distinct
`(content_session_id, prompt_number)` keys. -/
def PromptRel (a b : PromptRow) : Prop :=
  a.content_session_id ≠ b.content_session_id ∨ a.prompt_number ≠ b.prompt_number

/-- The three uniqueness invariants of the local store. -/
def DbInvariants (db : LocalDb) : Prop :=
  db.sdk_sessions.Pairwise SessRel ∧ db.user_prompts.Pairwise PromptRel

/-- Does a local store transition keep a prompt import inert? Either the
`(content_session_id, prompt_number)` key is taken or no owning session
exists. -/
def promptHandled (db : LocalDb) (p : RemotePromptPayload) : Prop :=
  (∃ r ∈ db.user_prompts, promptKeyMatch p.content_session_id p.prompt_number r = true) ∨
  (∀ r ∈ db.sdk_sessions, sessionContentMatch p.content_session_id r = false)

/-- An observation import is inert: no session binds the id, or the dedup
key is taken. -/
def observationHandled (db : LocalDb) (o : RemoteObservationPayload) : Prop :=
  (∀ r ∈ db.sdk_sessions, sessionMemoryMatch o.memory_session_id r = false) ∨
  (∃ r ∈ db.observations, observationDedupMatch o r = true)

/-- A summary import is inert: no session binds the id, or the dedup key is
taken. -/
def summaryHandled (db : LocalDb) (s : RemoteSummaryPayload) : Prop :=
  (∀ r ∈ db.sdk_sessions, sessionMemoryMatch s.memory_session_id r = false) ∨
  (∃ r ∈ db.session_summaries, summaryDedupMatch s r = true)

/-- The properties the claims demand of a collector's output relative to the
sequence of documents it added: at most one document per id, each kept
document is one of those added and dominates every added document with its
id, every added id is represented, and the batch is sorted ascending by
`(updatedAtEpoch, id)`. -/
def pushBatchSpec (adds output : List RemoteMemoryDocument) : Prop :=
  (output.map (fun d => d.id)).Nodup ∧
  output.Pairwise (fun l r => docLe l r = true) ∧
  (∀ d ∈ output, d ∈ adds ∧
    ∀ d' ∈ adds, d'.id = d.id → d'.updatedAtEpoch ≤ d.updatedAtEpoch) ∧
  (∀ d' ∈ adds, ∃ d ∈ output, d.id = d'.id)

/-- A digest stand-in used only to instantiate concrete examples; no claim
about the cycle control flow depends on the digest function. -/
def exampleHash : String → String := fun s => s

def emptyLocalDb : LocalDb :=
  { sdk_sessions := [], user_prompts := [], observations := [], session_summaries := [] }

def exampleSessionRow : SessionRow :=
  { rowId := 1, content_session_id := "c", memory_session_id := some "m"
    project := "p", user_prompt := none, custom_title := none
    started_at := "t", started_at_epoch := 10, completed_at := none
    completed_at_epoch := none, status := "active" }

def exampleDb : LocalDb :=
  { sdk_sessions := [exampleSessionRow], user_prompts := [], observations := []
    session_summaries := [] }

def exampleSessionPayload : RemoteSessionPayload :=
  { content_session_id := "c", memory_session_id := none, project := "p"
    user_prompt := none, custom_title := none, started_at := "t"
    started_at_epoch := 10, completed_at := none, completed_at_epoch := none
    status := "active" }

def exampleSessionPayloadTitled (customTitle : Option String) : RemoteSessionPayload :=
  { exampleSessionPayload with memory_session_id := none, custom_title := customTitle }

def exampleSessionDocTitled (customTitle : Option String) : RemoteMemoryDocument :=
  { id := "session:c", sortEpoch := 10, updatedAtEpoch := 10
    payload := .session (exampleSessionPayloadTitled customTitle) }

/-- A batch with two session documents for the same `content_session_id`
carrying different `custom_title` values. -/
def exampleConflictBatch : List RemoteMemoryDocument :=
  [exampleSessionDocTitled (some "A"), exampleSessionDocTitled (some "B")]

/-- A backend whose fetch always rejects while initialize and upserts
succeed. -/
def exampleFetchFailBackend : BackendBehavior :=
  { targetFingerprint := "fp", initResult := .ok ()
    upsertResult := fun _ => .ok (), fetchResult := fun _ => .error () }

/-- A backend whose initialize call rejects. -/
def exampleInitFailBackend : BackendBehavior :=
  { targetFingerprint := "fp", initResult := .error ()
    upsertResult := fun _ => .ok (), fetchResult := fun _ => .error () }

/-- A fully available backend returning an empty pull. -/
def exampleHealthyBackend : BackendBehavior :=
  { targetFingerprint := "fp", initResult := .ok ()
    upsertResult := fun _ => .ok (), fetchResult := fun _ => .ok [] }

def examplePromptRow : PromptRow :=
  { rowId := 7, content_session_id := "c", prompt_number := 1
    prompt_text := "hi", created_at := "t", created_at_epoch := 20 }

def exampleObservationRow : ObservationRow :=
  { rowId := 3, memory_session_id := "m", project := "p", text := none
    type := "discovery", title := some "T", subtitle := none, facts := none
    narrative := none, concepts := none, files_read := none
    files_modified := none, prompt_number := some 1, discovery_tokens := none
    created_at := "t", created_at_epoch := 30 }

def exampleSummaryRow : SummaryRow :=
  { rowId := 4, memory_session_id := "m", project := "p", request := none
    investigated := none, learned := none, completed := none
    next_steps := none, files_read := none, files_edited := none
    notes := none, prompt_number := some 1, discovery_tokens := some 5
    created_at := "t", created_at_epoch := 40 }

/-- Invariant of the insertion-ordered dedup map after processing the adds
`P`: unique keys, each entry keyed by its document's id, each entry dominating
every processed document with its id, and every processed id present. -/
def docMapInv (m : List (String × RemoteMemoryDocument))
    (P : List RemoteMemoryDocument) : Prop :=
  (m.map (fun kv => kv.1)).Nodup ∧
  (∀ kv ∈ m, kv.2.id = kv.1) ∧
  (∀ kv ∈ m, kv.2 ∈ P ∧
    ∀ d' ∈ P, d'.id = kv.1 → d'.updatedAtEpoch ≤ kv.2.updatedAtEpoch) ∧
  (∀ d' ∈ P, ∃ kv ∈ m, kv.1 = d'.id)

theorem mem_replaceFirst {α : Type} {q : α → Bool} {v x : α} :
    ∀ {l : List α}, x ∈ replaceFirst q v l → x = v ∨ x ∈ l := by
  intro l
  induction l with
  | nil => intro hx; simp [replaceFirst] at hx
  | cons y t ih =>
      intro hx
      cases hq : q y with
      | true =>
          rw [replaceFirst, if_pos hq] at hx
          rcases List.mem_cons.mp hx with h | h
          · exact Or.inl h
          · exact Or.inr (List.mem_cons_of_mem _ h)
      | false =>
          rw [replaceFirst, if_neg (by simp [hq])] at hx
          rcases List.mem_cons.mp hx with h | h
          · exact Or.inr (by simp [h])
          · rcases ih h with h1 | h1
            · exact Or.inl h1
            · exact Or.inr (List.mem_cons_of_mem _ h1)

theorem find?_replaceFirst_self {α : Type} {q : α → Bool} {v r : α} :
    ∀ {l : List α}, l.find? q = some r → q v = true →
    (replaceFirst q v l).find? q = some v := by
  intro l
  induction l with
  | nil => intro h; simp at h
  | cons y t ih =>
      intro hfind hv
      cases hq : q y with
      | true =>
          rw [replaceFirst, if_pos hq]
          exact List.find?_cons_of_pos _ hv
      | false =>
          rw [List.find?_cons_of_neg _ (by simp [hq])] at hfind
          rw [replaceFirst, if_neg (by simp [hq]),
            List.find?_cons_of_neg _ (by simp [hq])]
          exact ih hfind hv

theorem find?_replaceFirst_of_false {α : Type} {q p : α → Bool} {v : α} :
    ∀ {l : List α}, p v = false → (∀ x ∈ l, q x = true → p x = false) →
    (replaceFirst q v l).find? p = l.find? p := by
  intro l
  induction l with
  | nil => intro _ _; rfl
  | cons y t ih =>
      intro hv hql
      cases hq : q y with
      | true =>
          have hpy : p y = false := hql y (by simp) hq
          rw [replaceFirst, if_pos hq, List.find?_cons_of_neg _ (by simp [hv]),
            List.find?_cons_of_neg _ (by simp [hpy])]
      | false =>
          rw [replaceFirst, if_neg (by simp [hq])]
          cases hp : p y with
          | true =>
              rw [List.find?_cons_of_pos _ hp, List.find?_cons_of_pos _ hp]
          | false =>
              rw [List.find?_cons_of_neg _ (by simp [hp]),
                List.find?_cons_of_neg _ (by simp [hp])]
              exact ih hv (fun x hx => hql x (List.mem_cons_of_mem _ hx))

theorem pairwise_replaceFirst {α : Type} {R : α → α → Prop} {q : α → Bool} {v r : α} :
    ∀ {l : List α}, l.find? q = some r → l.Pairwise R →
    (∀ a ∈ l, R a r → R a v) → (∀ a ∈ l, R r a → R v a) →
    (replaceFirst q v l).Pairwise R := by
  intro l
  induction l with
  | nil => intro h; simp at h
  | cons y t ih =>
      intro hfind hPW h1 h2
      rcases List.pairwise_cons.mp hPW with ⟨hy, ht⟩
      cases hq : q y with
      | true =>
          rw [List.find?_cons_of_pos _ hq] at hfind
          have hry : r = y := by injection hfind with h; exact h.symm
          subst hry
          rw [replaceFirst, if_pos hq]
          refine List.pairwise_cons.mpr ⟨?_, ht⟩
          intro b hb
          exact h2 b (List.mem_cons_of_mem _ hb) (hy b hb)
      | false =>
          rw [List.find?_cons_of_neg _ (by simp [hq])] at hfind
          rw [replaceFirst, if_neg (by simp [hq])]
          refine List.pairwise_cons.mpr ⟨?_, ?_⟩
          · intro b hb
            rcases mem_replaceFirst hb with h | h
            · subst h
              have hrt : r ∈ t := List.mem_of_find?_eq_some hfind
              exact h1 y (by simp) (hy r hrt)
            · exact hy b h
          · exact ih hfind ht
              (fun a ha => h1 a (List.mem_cons_of_mem _ ha))
              (fun a ha => h2 a (List.mem_cons_of_mem _ ha))

theorem jsOrString_self (a : String) : jsOrString a a = a := by
  unfold jsOrString; split <;> simp_all

theorem jsOrString_left_idem (a b : String) :
    jsOrString a (jsOrString a b) = jsOrString a b := by
  unfold jsOrString; split <;> simp_all

theorem jsOrString_right_idem (a b : String) :
    jsOrString (jsOrString a b) b = jsOrString a b := by
  by_cases ha : a = "" <;> simp [jsOrString, ha]

theorem jsOrOptString_left_idem (a b : Option String) :
    jsOrOptString a (jsOrOptString a b) = jsOrOptString a b := by
  unfold jsOrOptString
  cases a with
  | none => rfl
  | some s => by_cases hs : s = "" <;> simp [hs]

theorem jsOrInt_right_idem (a b : Int) :
    jsOrInt (jsOrInt a b) b = jsOrInt a b := by
  by_cases ha : a = 0 <;> simp [jsOrInt, ha]

theorem jsNullish_left_idem {α : Type} (a b : Option α) :
    jsNullish a (jsNullish a b) = jsNullish a b := by
  unfold jsNullish; cases a <;> rfl

theorem jsNullish_self {α : Type} (a : Option α) : jsNullish a a = a := by
  unfold jsNullish; cases a <;> rfl

theorem jsOrInt_self (a : Int) : jsOrInt a a = a := by
  unfold jsOrInt; split <;> simp_all

theorem selectSessionStatus_self (s : String) : selectSessionStatus s s = s := by
  unfold selectSessionStatus; simp

theorem selectSessionStatus_idem (c i : String) :
    selectSessionStatus (selectSessionStatus c i) i = selectSessionStatus c i := by
  by_cases h : statusPriorityOf i ≥ statusPriorityOf c <;> simp [selectSessionStatus, h]

/-- Claim C5: document ids are deterministic functions of content. Two local
observation (or summary) rows whose payloads coincide after normalizing
`discovery_tokens` (missing mapped to 0) yield the same id, which is the kind
prefix plus the digest of the canonical JSON serialization of the payload
with keys in the fixed declared order; prompt ids are
`prompt:<content_session_id>:<prompt_number>` and session ids are
`session:<content_session_id>`, with no hashing. -/
theorem documentIds_are_deterministic :
    (∀ (hash : String → String) (o1 o2 : ObservationRow),
        observationPayloadOfRow o1 = observationPayloadOfRow o2 →
        (buildObservationDocument hash o1).id = (buildObservationDocument hash o2).id) ∧
    (∀ (hash : String → String) (o : ObservationRow),
        (buildObservationDocument hash o).id =
          "observation:" ++ hash (serializeObservationPayload (observationPayloadOfRow o))) ∧
    (∀ (hash : String → String) (s1 s2 : SummaryRow),
        summaryPayloadOfRow s1 = summaryPayloadOfRow s2 →
        (buildSummaryDocument hash s1).id = (buildSummaryDocument hash s2).id) ∧
    (∀ (hash : String → String) (s : SummaryRow),
        (buildSummaryDocument hash s).id =
          "summary:" ++ hash (serializeSummaryPayload (summaryPayloadOfRow s))) ∧
    (∀ p : LocalPromptRow,
        (buildPromptDocument p).id =
          "prompt:" ++ p.content_session_id ++ ":" ++ toString p.prompt_number) ∧
    (∀ (s : SessionRow) (u : Option Int),
        (buildSessionDocument s u).id = "session:" ++ s.content_session_id) := by
  refine ⟨?_, ?_, ?_, ?_, ?_, ?_⟩
  · intro hash o1 o2 h
    simp [buildObservationDocument, buildHashDocumentId, h]
  · intro hash o; rfl
  · intro hash s1 s2 h
    simp [buildSummaryDocument, buildHashDocumentId, h]
  · intro hash s; rfl
  · intro p; rfl
  · intro s u; rfl

theorem documentIds_are_deterministic_witness :
    observationPayloadOfRow exampleObservationRow =
      observationPayloadOfRow { exampleObservationRow with discovery_tokens := some 0 } ∧
    (buildObservationDocument exampleHash exampleObservationRow).id =
      (buildObservationDocument exampleHash
        { exampleObservationRow with discovery_tokens := some 0 }).id :=
  ⟨by decide, documentIds_are_deterministic.1 exampleHash _ _ (by decide)⟩

/-- Claim C8: loading the state file never surfaces an error. A missing file, a
read failure, unparsable content, a version other than 1, or an absent
targets field all yield the empty state `{version: 1, targets: {}}` instead
of raising; a well-formed version-1 file is returned as parsed. -/
theorem loadStateFile_never_fails :
    loadStateFile RawStateFile.missing = emptyStateFile ∧
    loadStateFile RawStateFile.readFailed = emptyStateFile ∧
    loadStateFile RawStateFile.parseFailed = emptyStateFile ∧
    (∀ (v : Option Int) (t : Option (List (String × RemoteSyncTargetState))),
        v ≠ some 1 ∨ t = none →
        loadStateFile (RawStateFile.parsed v t) = emptyStateFile) ∧
    (∀ t, loadStateFile (RawStateFile.parsed (some 1) (some t)) =
        { version := 1, targets := t }) := by
  refine ⟨rfl, rfl, rfl, ?_, ?_⟩
  · intro v t h
    cases t with
    | none => rfl
    | some targets =>
        rcases h with h | h
        · simp [loadStateFile, h]
        · simp at h
  · intro t
    simp [loadStateFile]

theorem loadStateFile_never_fails_witness :
    ((some (2 : Int) ≠ some 1) ∨
        (some ([] : List (String × RemoteSyncTargetState)) = none)) ∧
    loadStateFile (RawStateFile.parsed (some 2) (some [])) = emptyStateFile :=
  ⟨Or.inl (by decide), loadStateFile_never_fails.2.2.2.1 (some 2) (some []) (Or.inl (by decide))⟩

/-- Claim C9: importing a session document whose payload `memory_session_id` is
null never clears an existing binding: when the local row for the same
`content_session_id` carries `some m`, the row still carries `some m` after
`upsertSession`. -/
theorem upsertSession_null_mem_keeps_binding (db : LocalDb)
    (s : RemoteSessionPayload) (r : SessionRow) (m : String)
    (hnull : s.memory_session_id = none)
    (hfind : db.sdk_sessions.find? (sessionContentMatch s.content_session_id) = some r)
    (hmem : r.memory_session_id = some m) :
    ((upsertSession db s).2.sdk_sessions.find?
        (sessionContentMatch s.content_session_id)).bind
      (fun x => x.memory_session_id) = some m := by
  have hres : resolveImportedMemorySessionId db.sdk_sessions s (some r) = some m := by
    simp [resolveImportedMemorySessionId, jsTruthyOptString, hnull, hmem]
  have hnextmem : (mergeSessionRow db.sdk_sessions s r).memory_session_id = some m := by
    simp [mergeSessionRow, hres]
  have hq : sessionContentMatch s.content_session_id r = true := List.find?_some hfind
  have hnextq : sessionContentMatch s.content_session_id
      (mergeSessionRow db.sdk_sessions s r) = true := hq
  by_cases hch : sessionChanged (mergeSessionRow db.sdk_sessions s r) r = true
  · simp only [upsertSession, upsertSessionRows, hfind, hch, if_true]
    rw [find?_replaceFirst_self hfind hnextq]
    simp [hnextmem]
  · have hch2 : sessionChanged (mergeSessionRow db.sdk_sessions s r) r = false := by
      simpa using hch
    simp [upsertSession, upsertSessionRows, hfind, hch2, hmem]

theorem upsertSession_null_mem_keeps_binding_witness :
    exampleSessionPayload.memory_session_id = none ∧
    exampleSessionRow.memory_session_id = some "m" ∧
    ((upsertSession exampleDb exampleSessionPayload).2.sdk_sessions.find?
        (sessionContentMatch exampleSessionPayload.content_session_id)).bind
      (fun x => x.memory_session_id) = some "m" :=
  ⟨rfl, rfl, upsertSession_null_mem_keeps_binding exampleDb exampleSessionPayload
    exampleSessionRow "m" rfl (by decide) rfl⟩

/-- Claim C10: an event-driven sync task whose id matches no local row is a no-op:
it completes without invoking any backend operation, leaves the state file
untouched and reports no failure. -/
theorem schedule_missing_id_is_noop :
    (∀ (B : BackendBehavior) (db : LocalDb) (file : RemoteSyncStateFile)
        (promptId : Nat), getPromptById db promptId = none →
        runUserPromptSyncTask B db file promptId =
          { ok := true, file := file, pushed := [] }) ∧
    (∀ (hash : String → String) (B : BackendBehavior) (db : LocalDb)
        (file : RemoteSyncStateFile) (observationId : Nat),
        getObservationById db observationId = none →
        runObservationSyncTask hash B db file observationId =
          { ok := true, file := file, pushed := [] }) ∧
    (∀ (hash : String → String) (B : BackendBehavior) (db : LocalDb)
        (file : RemoteSyncStateFile) (summaryId : Nat),
        getSummaryById db summaryId = none →
        runSummarySyncTask hash B db file summaryId =
          { ok := true, file := file, pushed := [] }) := by
  refine ⟨?_, ?_, ?_⟩
  · intro B db file promptId h
    simp [runUserPromptSyncTask, h]
  · intro hash B db file observationId h
    simp [runObservationSyncTask, h]
  · intro hash B db file summaryId h
    simp [runSummarySyncTask, h]

theorem schedule_missing_id_is_noop_witness :
    getPromptById emptyLocalDb 1 = none ∧
    runUserPromptSyncTask exampleHealthyBackend emptyLocalDb emptyStateFile 1 =
      { ok := true, file := emptyStateFile, pushed := [] } :=
  ⟨rfl, schedule_missing_id_is_noop.1 exampleHealthyBackend emptyLocalDb
    emptyStateFile 1 rfl⟩

theorem jsOrString_eq_ite (a b : String) :
    jsOrString a b = if a ≠ "" then a else b := by
  unfold jsOrString; by_cases h : a = "" <;> simp [h]

theorem jsOrOptString_eq_ite (a b : Option String) :
    jsOrOptString a b = if jsTruthyOptString a then a else b := by
  unfold jsOrOptString jsTruthyOptString
  cases a with
  | none => simp
  | some s => by_cases h : s = "" <;> simp [h]

theorem jsOrInt_eq_ite (a b : Int) :
    jsOrInt a b = if a ≠ 0 then a else b := by
  unfold jsOrInt; by_cases h : a = 0 <;> simp [h]

theorem jsNullish_eq_ite {α : Type} (a b : Option α) :
    jsNullish a b = if a.isSome then a else b := by
  unfold jsNullish; cases a <;> simp

/-- The code's `nextValues` computation coincides with the spec's field-wise
merge rules. -/
theorem mergeSessionRow_eq_spec (rows : List SessionRow)
    (s : RemoteSessionPayload) (r : SessionRow) :
    mergeSessionRow rows s r =
      specSessionMerge s r (resolveImportedMemorySessionId rows s (some r)) := by
  unfold mergeSessionRow specSessionMerge
  rw [jsOrString_eq_ite, jsOrOptString_eq_ite, jsOrInt_eq_ite, jsOrString_eq_ite,
    jsNullish_eq_ite, jsNullish_eq_ite, jsNullish_eq_ite]
  rfl

theorem sessionChanged_self (r : SessionRow) : sessionChanged r r = false := by
  simp [sessionChanged]

theorem sessionChanged_iff_ne (n r : SessionRow) (h1 : n.rowId = r.rowId)
    (h2 : n.content_session_id = r.content_session_id) :
    sessionChanged n r = true ↔ n ≠ r := by
  cases n; cases r
  simp only [sessionChanged, SessionRow.mk.injEq, ne_eq, Bool.or_eq_true,
    bne_iff_ne] at *
  subst h1; subst h2
  simp only [eq_self_iff_true, true_and]
  tauto

theorem LocalDb_eta (db : LocalDb) :
    ({ sdk_sessions := db.sdk_sessions, user_prompts := db.user_prompts,
       observations := db.observations,
       session_summaries := db.session_summaries } : LocalDb) = db := rfl

/-- Claim C4: for an existing local row with the same `content_session_id`,
`upsertSession` computes exactly the spec's field-wise merge
(`specSessionMerge`), issues the UPDATE if and only if at least one field
differs, and returns whether a change was written. -/
theorem upsertSession_follows_merge_rules (db : LocalDb)
    (s : RemoteSessionPayload) (r : SessionRow)
    (hfind : db.sdk_sessions.find? (sessionContentMatch s.content_session_id) = some r) :
    upsertSession db s =
      (decide (specSessionMerge s r
          (resolveImportedMemorySessionId db.sdk_sessions s (some r)) ≠ r),
       if specSessionMerge s r
            (resolveImportedMemorySessionId db.sdk_sessions s (some r)) = r
       then db
       else { db with sdk_sessions := (replaceFirst
          (sessionContentMatch s.content_session_id)
          (specSessionMerge s r
            (resolveImportedMemorySessionId db.sdk_sessions s (some r)))
          db.sdk_sessions) }) := by
  rw [← mergeSessionRow_eq_spec]
  have hiff := sessionChanged_iff_ne (mergeSessionRow db.sdk_sessions s r) r rfl rfl
  by_cases hc : mergeSessionRow db.sdk_sessions s r = r
  · have hch : sessionChanged (mergeSessionRow db.sdk_sessions s r) r = false := by
      rw [hc]; exact sessionChanged_self r
    simp [upsertSession, upsertSessionRows, hfind, hch, hc, sessionChanged_self,
      LocalDb_eta]
  · have hch : sessionChanged (mergeSessionRow db.sdk_sessions s r) r = true :=
      hiff.mpr hc
    simp [upsertSession, upsertSessionRows, hfind, hch, hc]

theorem upsertSession_follows_merge_rules_witness :
    exampleDb.sdk_sessions.find?
        (sessionContentMatch exampleSessionPayload.content_session_id) =
      some exampleSessionRow ∧
    upsertSession exampleDb exampleSessionPayload =
      (decide (specSessionMerge exampleSessionPayload exampleSessionRow
          (resolveImportedMemorySessionId exampleDb.sdk_sessions
            exampleSessionPayload (some exampleSessionRow)) ≠ exampleSessionRow),
       if specSessionMerge exampleSessionPayload exampleSessionRow
            (resolveImportedMemorySessionId exampleDb.sdk_sessions
              exampleSessionPayload (some exampleSessionRow)) = exampleSessionRow
       then exampleDb
       else { exampleDb with sdk_sessions := (replaceFirst
          (sessionContentMatch exampleSessionPayload.content_session_id)
          (specSessionMerge exampleSessionPayload exampleSessionRow
            (resolveImportedMemorySessionId exampleDb.sdk_sessions
              exampleSessionPayload (some exampleSessionRow)))
          exampleDb.sdk_sessions) }) :=
  ⟨by decide, upsertSession_follows_merge_rules exampleDb exampleSessionPayload
    exampleSessionRow (by decide)⟩

theorem key_unique {α β : Type} :
    ∀ {l : List (α × β)}, (l.map (fun kv => kv.1)).Nodup →
    ∀ {a b : α × β}, a ∈ l → b ∈ l → a.1 = b.1 → a = b := by
  intro l
  induction l with
  | nil => intro _ a b ha; simp at ha
  | cons x t ih =>
      intro hnd a b ha hb hab
      have hnd2 : (x.1 :: t.map (fun kv => kv.1)).Nodup := by simpa using hnd
      rcases List.nodup_cons.mp hnd2 with ⟨hx, ht2⟩
      rcases List.mem_cons.mp ha with ha1 | ha1 <;>
        rcases List.mem_cons.mp hb with hb1 | hb1
      · rw [ha1, hb1]
      · subst ha1
        have hbmem : b.1 ∈ t.map (fun kv => kv.1) := List.mem_map.mpr ⟨b, hb1, rfl⟩
        rw [← hab] at hbmem
        exact absurd hbmem hx
      · subst hb1
        have hamem : a.1 ∈ t.map (fun kv => kv.1) := List.mem_map.mpr ⟨a, ha1, rfl⟩
        rw [hab] at hamem
        exact absurd hamem hx
      · exact ih ht2 ha1 hb1 hab

theorem addDocument_inv {m : List (String × RemoteMemoryDocument)}
    {P : List RemoteMemoryDocument} {d : RemoteMemoryDocument}
    (h : docMapInv m P) : docMapInv (addDocument m d) (P ++ [d]) := by
  rcases h with ⟨hnd, hkey, hmax, hcov⟩
  cases hf : m.find? (fun kv => kv.1 == d.id) with
  | none =>
      have hne : ∀ kv ∈ m, kv.1 ≠ d.id := by
        intro kv hkv
        have := List.find?_eq_none.mp hf kv hkv
        simpa using this
      simp only [addDocument, hf]
      refine ⟨?_, ?_, ?_, ?_⟩
      · rw [List.map_append]
        rw [List.nodup_append]
        refine ⟨hnd, by simp, ?_⟩
        intro a hmem hamem
        simp at hamem
        rcases List.mem_map.mp hmem with ⟨kv, hkv, hkva⟩
        exact hne kv hkv (by rw [hkva, hamem])
      · intro kv hkv
        rcases List.mem_append.mp hkv with hkv1 | hkv1
        · exact hkey kv hkv1
        · simp at hkv1; rw [hkv1]
      · intro kv hkv
        rcases List.mem_append.mp hkv with hkv1 | hkv1
        · refine ⟨List.mem_append_left _ (hmax kv hkv1).1, ?_⟩
          intro d' hd' hd'id
          rcases List.mem_append.mp hd' with hd'1 | hd'1
          · exact (hmax kv hkv1).2 d' hd'1 hd'id
          · simp at hd'1
            rw [hd'1] at hd'id
            exact absurd hd'id.symm (hne kv hkv1)
        · simp at hkv1
          rw [hkv1]
          refine ⟨List.mem_append_right _ (by simp), ?_⟩
          intro d' hd' hd'id
          rcases List.mem_append.mp hd' with hd'1 | hd'1
          · rcases hcov d' hd'1 with ⟨kv', hkv', hkv'id⟩
            exact absurd (by rw [hkv'id, hd'id]) (hne kv' hkv')
          · simp at hd'1; rw [hd'1]
      · intro d' hd'
        rcases List.mem_append.mp hd' with hd'1 | hd'1
        · rcases hcov d' hd'1 with ⟨kv', hkv', hkv'id⟩
          exact ⟨kv', List.mem_append_left _ hkv', hkv'id⟩
        · simp at hd'1
          exact ⟨(d.id, d), List.mem_append_right _ (by simp), by rw [hd'1]⟩
  | some ex =>
      have hexid : ex.1 = d.id := by
        have := List.find?_some hf
        simpa using this
      have hexm : ex ∈ m := List.mem_of_find?_eq_some hf
      simp only [addDocument, hf]
      by_cases hle : ex.2.updatedAtEpoch ≤ d.updatedAtEpoch
      · rw [if_pos hle]
        have hfst : ∀ kv ∈ m,
            (if kv.1 == d.id then (d.id, d) else kv).1 = kv.1 := by
          intro kv hkv
          by_cases hk : kv.1 == d.id
          · simp [hk]
            exact (by simpa using hk : kv.1 = d.id).symm
          · simp [hk]
        refine ⟨?_, ?_, ?_, ?_⟩
        · rw [List.map_map]
          have : m.map ((fun kv => kv.1) ∘
              (fun kv => if kv.1 == d.id then (d.id, d) else kv)) =
              m.map (fun kv => kv.1) := List.map_congr_left hfst
          rw [this]; exact hnd
        · intro kv' hkv'
          rcases List.mem_map.mp hkv' with ⟨kv, hkv, hkveq⟩
          by_cases hk : kv.1 == d.id
          · rw [← hkveq]; simp [hk]
          · rw [← hkveq]; simp [hk]; exact hkey kv hkv
        · intro kv' hkv'
          rcases List.mem_map.mp hkv' with ⟨kv, hkv, hkveq⟩
          by_cases hk : kv.1 == d.id
          · have hkv'eq : kv' = (d.id, d) := by rw [← hkveq]; simp [hk]
            rw [hkv'eq]
            refine ⟨List.mem_append_right _ (by simp), ?_⟩
            intro d' hd' hd'id
            rcases List.mem_append.mp hd' with hd'1 | hd'1
            · have := (hmax ex hexm).2 d' hd'1 (by rw [hd'id]; exact hexid.symm)
              exact le_trans this hle
            · simp at hd'1; rw [hd'1]
          · have hkv'eq : kv' = kv := by rw [← hkveq]; simp [hk]
            rw [hkv'eq]
            refine ⟨List.mem_append_left _ (hmax kv hkv).1, ?_⟩
            intro d' hd' hd'id
            rcases List.mem_append.mp hd' with hd'1 | hd'1
            · exact (hmax kv hkv).2 d' hd'1 hd'id
            · simp at hd'1
              rw [hd'1] at hd'id
              exact absurd (by simpa using hd'id.symm) hk
        · intro d' hd'
          rcases List.mem_append.mp hd' with hd'1 | hd'1
          · rcases hcov d' hd'1 with ⟨kv', hkv', hkv'id⟩
            refine ⟨if kv'.1 == d.id then (d.id, d) else kv',
              List.mem_map.mpr ⟨kv', hkv', rfl⟩, ?_⟩
            rw [hfst kv' hkv']; exact hkv'id
          · simp at hd'1
            refine ⟨if ex.1 == d.id then (d.id, d) else ex,
              List.mem_map.mpr ⟨ex, hexm, rfl⟩, ?_⟩
            rw [hfst ex hexm, hexid, hd'1]
      · rw [if_neg hle]
        refine ⟨hnd, hkey, ?_, ?_⟩
        · intro kv hkv
          refine ⟨List.mem_append_left _ (hmax kv hkv).1, ?_⟩
          intro d' hd' hd'id
          rcases List.mem_append.mp hd' with hd'1 | hd'1
          · exact (hmax kv hkv).2 d' hd'1 hd'id
          · simp at hd'1
            rw [hd'1] at hd'id
            have hkvex : kv = ex :=
              key_unique hnd hkv hexm (by rw [← hd'id, hexid])
            rw [hd'1, hkvex]
            omega
        · intro d' hd'
          rcases List.mem_append.mp hd' with hd'1 | hd'1
          · exact hcov d' hd'1
          · simp at hd'1
            exact ⟨ex, hexm, by rw [hexid, hd'1]⟩

theorem foldl_addDocument_inv (adds : List RemoteMemoryDocument) :
    ∀ (m : List (String × RemoteMemoryDocument)) (P : List RemoteMemoryDocument),
    docMapInv m P → docMapInv (adds.foldl addDocument m) (P ++ adds) := by
  induction adds with
  | nil => intro m P h; simpa using h
  | cons d rest ih =>
      intro m P h
      have h2 := addDocument_inv (d := d) h
      have h3 := ih (addDocument m d) (P ++ [d]) h2
      simpa using h3

theorem docMapInv_nil : docMapInv [] [] := by
  refine ⟨by simp, by simp, by simp, by simp⟩

theorem docLe_trans (a b c : RemoteMemoryDocument) :
    docLe a b = true → docLe b c = true → docLe a c = true := by
  unfold docLe
  simp only [Bool.or_eq_true, Bool.and_eq_true, decide_eq_true_eq, beq_iff_eq]
  rintro (h1 | ⟨h1e, h1s⟩) (h2 | ⟨h2e, h2s⟩)
  · exact Or.inl (by omega)
  · exact Or.inl (by omega)
  · exact Or.inl (by omega)
  · exact Or.inr ⟨by omega, le_trans h1s h2s⟩

theorem docLe_total (a b : RemoteMemoryDocument) :
    (docLe a b || docLe b a) = true := by
  unfold docLe
  simp only [Bool.or_eq_true, Bool.and_eq_true, decide_eq_true_eq, beq_iff_eq]
  rcases lt_trichotomy a.updatedAtEpoch b.updatedAtEpoch with h | h | h
  · exact Or.inl (Or.inl h)
  · rcases le_total a.id b.id with hs | hs
    · exact Or.inl (Or.inr ⟨h, hs⟩)
    · exact Or.inr (Or.inr ⟨h.symm, hs⟩)
  · exact Or.inr (Or.inl h)

theorem sortDocuments_fold_spec (adds : List RemoteMemoryDocument) :
    pushBatchSpec adds (sortDocuments (adds.foldl addDocument [])) := by
  have hinv := foldl_addDocument_inv adds [] [] docMapInv_nil
  simp only [List.nil_append] at hinv
  rcases hinv with ⟨hnd, hkey, hmax, hcov⟩
  have hperm : (sortDocuments (adds.foldl addDocument [])).Perm
      ((adds.foldl addDocument []).map (fun kv => kv.2)) :=
    List.perm_insertionSort _ _
  refine ⟨?_, ?_, ?_, ?_⟩
  · have hids : ((adds.foldl addDocument []).map (fun kv => kv.2)).map
        (fun d => d.id) = (adds.foldl addDocument []).map (fun kv => kv.1) := by
      rw [List.map_map]
      exact List.map_congr_left (fun kv hkv => hkey kv hkv)
    have hnodup : (((adds.foldl addDocument []).map (fun kv => kv.2)).map
        (fun d => d.id)).Nodup := by rw [hids]; exact hnd
    exact ((hperm.map (fun d => d.id)).nodup_iff).mpr hnodup
  · exact @List.sorted_insertionSort _ (fun l r => docLe l r = true) _
      ⟨fun a b => by
        have h := docLe_total a b
        rcases (Bool.or_eq_true _ _).mp h with h1 | h1
        · exact Or.inl h1
        · exact Or.inr h1⟩
      ⟨fun a b c hab hbc => docLe_trans a b c hab hbc⟩ _
  · intro d hd
    have hd2 : d ∈ (adds.foldl addDocument []).map (fun kv => kv.2) :=
      hperm.mem_iff.mp hd
    rcases List.mem_map.mp hd2 with ⟨kv, hkv, hkveq⟩
    have hidkey : d.id = kv.1 := by rw [← hkveq]; exact hkey kv hkv
    refine ⟨by rw [← hkveq]; exact (hmax kv hkv).1, ?_⟩
    intro d' hd' hd'id
    rw [← hkveq]
    exact (hmax kv hkv).2 d' hd' (by rw [hd'id, hidkey])
  · intro d' hd'
    rcases hcov d' hd' with ⟨kv, hkv, hkvid⟩
    refine ⟨kv.2, ?_, ?_⟩
    · exact hperm.mem_iff.mpr (List.mem_map.mpr ⟨kv, hkv, rfl⟩)
    · rw [hkey kv hkv, hkvid]

/-- Claim C7: every push batch produced by the collectors (bootstrap, incremental,
and the three event-driven ones) contains at most one document per id, each
kept document dominates (in `updatedAtEpoch`) every document added under its
id and every added id is represented, and the batch is sorted ascending by
`(updatedAtEpoch, id)`. -/
theorem collector_batches_unique_and_sorted (hash : String → String) :
    (∀ db, pushBatchSpec (bootstrapAdds hash db) (collectBootstrapDocuments hash db)) ∧
    (∀ db sinceEpoch, pushBatchSpec (incrementalAdds hash db sinceEpoch)
        (collectIncrementalDocuments hash db sinceEpoch)) ∧
    (∀ db prompts, pushBatchSpec (promptAdds db prompts)
        (collectPromptDocuments db prompts)) ∧
    (∀ db observations, pushBatchSpec (observationAdds hash db observations)
        (collectObservationDocuments hash db observations)) ∧
    (∀ db summaries, pushBatchSpec (summaryAdds hash db summaries)
        (collectSummaryDocuments hash db summaries)) :=
  ⟨fun db => sortDocuments_fold_spec (bootstrapAdds hash db),
   fun db sinceEpoch => sortDocuments_fold_spec (incrementalAdds hash db sinceEpoch),
   fun db prompts => sortDocuments_fold_spec (promptAdds db prompts),
   fun db observations => sortDocuments_fold_spec (observationAdds hash db observations),
   fun db summaries => sortDocuments_fold_spec (summaryAdds hash db summaries)⟩

theorem collector_batches_unique_and_sorted_witness :
    pushBatchSpec (bootstrapAdds exampleHash exampleDb)
      (collectBootstrapDocuments exampleHash exampleDb) :=
  (collector_batches_unique_and_sorted exampleHash).1 exampleDb

theorem find?_save_map (targets : List (String × RemoteSyncTargetState))
    (fp : String) (st : RemoteSyncTargetState) :
    (targets.find? (fun kv => kv.1 == fp)).isSome = true →
    (targets.map (fun kv => if kv.1 == fp then (fp, st) else kv)).find?
      (fun kv => kv.1 == fp) = some (fp, st) := by
  induction targets with
  | nil => intro h; simp at h
  | cons x t ih =>
      intro h
      cases hx : (x.1 == fp) with
      | true =>
          simp only [List.map_cons, hx, if_true]
          exact List.find?_cons_of_pos _ (by simp)
      | false =>
          simp only [List.map_cons, hx, if_false]
          rw [List.find?_cons_of_neg _ (by simp [hx])]
          rw [List.find?_cons_of_neg _ (by simp [hx])] at h
          exact ih h

theorem loadTargetState_save (file : RemoteSyncStateFile) (fp : String)
    (st : RemoteSyncTargetState) :
    loadTargetState (saveTargetState file fp st) fp = st := by
  unfold saveTargetState
  by_cases h : (file.targets.find? (fun kv => kv.1 == fp)).isSome = true
  · rw [if_pos h]
    unfold loadTargetState
    simp only [find?_save_map file.targets fp st h]
  · rw [if_neg h]
    unfold loadTargetState
    have hnone : file.targets.find? (fun kv => kv.1 == fp) = none := by
      cases hf : file.targets.find? (fun kv => kv.1 == fp) with
      | none => rfl
      | some kv => rw [hf] at h; simp at h
    rw [List.find?_append, hnone]
    simp

theorem foldl_max_ge_init (l : List RemoteMemoryDocument) :
    ∀ acc : Int, acc ≤ l.foldl (fun m d => max m d.updatedAtEpoch) acc := by
  induction l with
  | nil => intro acc; simp
  | cons d t ih =>
      intro acc
      exact le_trans (le_max_left _ _) (ih _)

theorem le_getMaxUpdatedEpoch {d : RemoteMemoryDocument} :
    ∀ {documents : List RemoteMemoryDocument}, d ∈ documents →
    d.updatedAtEpoch ≤ getMaxUpdatedEpoch documents := by
  intro documents
  unfold getMaxUpdatedEpoch
  generalize (0 : Int) = acc
  induction documents generalizing acc with
  | nil => intro h; simp at h
  | cons x t ih =>
      intro h
      rcases List.mem_cons.mp h with h1 | h1
      · subst h1
        exact le_trans (le_max_right _ _) (foldl_max_ge_init t _)
      · exact ih _ h1

theorem cyclePull_pushed (B : BackendBehavior) (db : LocalDb)
    (file : RemoteSyncStateFile) (st : RemoteSyncTargetState)
    (acc : List (List RemoteMemoryDocument)) :
    (cyclePull B db file st acc).pushed = acc := by
  cases hf : B.fetchResult (max 0 (st.lastPullEpoch - REMOTE_INCREMENTAL_OVERLAP_MS)) with
  | error e => simp only [cyclePull, hf]
  | ok docs =>
      simp only [cyclePull, hf]
      split <;> rfl

theorem cyclePull_fail (B : BackendBehavior) (db : LocalDb)
    (file : RemoteSyncStateFile) (st : RemoteSyncTargetState)
    (acc : List (List RemoteMemoryDocument))
    (hfail : (cyclePull B db file st acc).ok = false) :
    (cyclePull B db file st acc).file = file ∧
    (cyclePull B db file st acc).db = db := by
  cases hf : B.fetchResult (max 0 (st.lastPullEpoch - REMOTE_INCREMENTAL_OVERLAP_MS)) with
  | error e => simp [cyclePull, hf]
  | ok docs =>
      simp only [cyclePull, hf] at hfail
      by_cases hemp : docs.isEmpty = true
      · rw [if_pos hemp] at hfail; simp at hfail
      · rw [if_neg hemp] at hfail; simp at hfail

theorem cyclePull_spec (B : BackendBehavior) (db : LocalDb)
    (file : RemoteSyncStateFile) (st : RemoteSyncTargetState)
    (acc : List (List RemoteMemoryDocument))
    (hok : (cyclePull B db file st acc).ok = true) :
    (loadTargetState (cyclePull B db file st acc).file
        B.targetFingerprint).bootstrapComplete = st.bootstrapComplete ∧
    (loadTargetState (cyclePull B db file st acc).file
        B.targetFingerprint).lastLocalPushEpoch = st.lastLocalPushEpoch ∧
    st.lastPullEpoch ≤ (loadTargetState (cyclePull B db file st acc).file
        B.targetFingerprint).lastPullEpoch ∧
    (∀ d ∈ (cyclePull B db file st acc).pulled, d.updatedAtEpoch ≤
      (loadTargetState (cyclePull B db file st acc).file
        B.targetFingerprint).lastPullEpoch) := by
  cases hf : B.fetchResult (max 0 (st.lastPullEpoch - REMOTE_INCREMENTAL_OVERLAP_MS)) with
  | error e => simp only [cyclePull, hf] at hok; simp at hok
  | ok docs =>
      simp only [cyclePull, hf] at hok ⊢
      by_cases hemp : docs.isEmpty = true
      · rw [if_pos hemp]
        rw [loadTargetState_save]
        have hdocs : docs = [] := List.isEmpty_iff.mp hemp
        refine ⟨rfl, rfl, le_refl _, ?_⟩
        intro d hd
        rw [hdocs] at hd
        simp at hd
      · rw [if_neg hemp]
        rw [loadTargetState_save]
        refine ⟨rfl, rfl, le_max_left _ _, ?_⟩
        intro d hd
        exact le_trans (le_getMaxUpdatedEpoch hd) (le_max_right _ _)

theorem pushDocumentsStep_empty (B : BackendBehavior) (callIdx : Nat)
    (file : RemoteSyncStateFile) (documents : List RemoteMemoryDocument)
    (h : documents.isEmpty = true) :
    pushDocumentsStep B callIdx file documents = .ok (file, callIdx, []) := by
  simp [pushDocumentsStep, h]

theorem pushDocumentsStep_ok (B : BackendBehavior) (callIdx : Nat)
    (file : RemoteSyncStateFile) (documents : List RemoteMemoryDocument)
    (h : documents.isEmpty = false) (hup : B.upsertResult callIdx = .ok ()) :
    pushDocumentsStep B callIdx file documents =
      .ok (saveTargetState file B.targetFingerprint
        { loadTargetState file B.targetFingerprint with
          lastLocalPushEpoch := max
            (loadTargetState file B.targetFingerprint).lastLocalPushEpoch
            (getMaxUpdatedEpoch documents) }, callIdx + 1, [documents]) := by
  simp [pushDocumentsStep, h, hup]

theorem pushDocumentsStep_err (B : BackendBehavior) (callIdx : Nat)
    (file : RemoteSyncStateFile) (documents : List RemoteMemoryDocument)
    (h : documents.isEmpty = false) (e : Unit)
    (hup : B.upsertResult callIdx = .error e) :
    pushDocumentsStep B callIdx file documents = .error e := by
  simp [pushDocumentsStep, h, hup]

theorem cyclePull_ok (B : BackendBehavior) (db : LocalDb)
    (file : RemoteSyncStateFile) (st : RemoteSyncTargetState)
    (acc : List (List RemoteMemoryDocument))
    (hfetch : ∀ e, ∃ ds, B.fetchResult e = .ok ds) :
    (cyclePull B db file st acc).ok = true := by
  obtain ⟨ds, hds⟩ := hfetch (max 0 (st.lastPullEpoch - REMOTE_INCREMENTAL_OVERLAP_MS))
  simp only [cyclePull, hds]
  split <;> rfl

theorem cycleIncremental_pushed_prefix (hash : String → String)
    (B : BackendBehavior) (db : LocalDb) (file : RemoteSyncStateFile)
    (st : RemoteSyncTargetState) (acc : List (List RemoteMemoryDocument))
    (callIdx : Nat) :
    ∃ rest, (cycleIncremental hash B db file st acc callIdx).pushed = acc ++ rest := by
  by_cases hemp : (collectIncrementalDocuments hash db
      (max 0 (st.lastLocalPushEpoch - LOCAL_INCREMENTAL_OVERLAP_MS))).isEmpty = true
  · refine ⟨[], ?_⟩
    simp only [cycleIncremental, if_pos hemp]
    rw [cyclePull_pushed]; simp
  · cases hup : B.upsertResult callIdx with
    | error e =>
        refine ⟨[], ?_⟩
        simp only [cycleIncremental, if_neg hemp,
          pushDocumentsStep_err B callIdx file _ (by simpa using hemp) e hup]
        simp
    | ok u =>
        cases u
        refine ⟨[collectIncrementalDocuments hash db
          (max 0 (st.lastLocalPushEpoch - LOCAL_INCREMENTAL_OVERLAP_MS))], ?_⟩
        simp only [cycleIncremental, if_neg hemp,
          pushDocumentsStep_ok B callIdx file _ (by simpa using hemp) hup]
        rw [cyclePull_pushed]

theorem cycleIncremental_fail_no_push (hash : String → String)
    (B : BackendBehavior) (db : LocalDb) (file : RemoteSyncStateFile)
    (st : RemoteSyncTargetState) (acc : List (List RemoteMemoryDocument))
    (callIdx : Nat)
    (hfail : (cycleIncremental hash B db file st acc callIdx).ok = false)
    (hnp : (cycleIncremental hash B db file st acc callIdx).pushed = []) :
    (cycleIncremental hash B db file st acc callIdx).file = file ∧
    (cycleIncremental hash B db file st acc callIdx).db = db := by
  by_cases hemp : (collectIncrementalDocuments hash db
      (max 0 (st.lastLocalPushEpoch - LOCAL_INCREMENTAL_OVERLAP_MS))).isEmpty = true
  · simp only [cycleIncremental, if_pos hemp] at hfail ⊢
    exact cyclePull_fail B db file st acc hfail
  · cases hup : B.upsertResult callIdx with
    | error e =>
        simp only [cycleIncremental, if_neg hemp,
          pushDocumentsStep_err B callIdx file _ (by simpa using hemp) e hup]
        simp
    | ok u =>
        cases u
        simp only [cycleIncremental, if_neg hemp,
          pushDocumentsStep_ok B callIdx file _ (by simpa using hemp) hup] at hnp
        rw [cyclePull_pushed] at hnp
        simp at hnp

theorem cycleIncremental_spec (hash : String → String) (B : BackendBehavior)
    (db : LocalDb) (file : RemoteSyncStateFile) (st : RemoteSyncTargetState)
    (acc : List (List RemoteMemoryDocument)) (callIdx : Nat)
    (hacc : ∀ b ∈ acc, ∀ d ∈ b, d.updatedAtEpoch ≤ st.lastLocalPushEpoch)
    (hok : (cycleIncremental hash B db file st acc callIdx).ok = true) :
    (∀ b ∈ (cycleIncremental hash B db file st acc callIdx).pushed, ∀ d ∈ b,
        d.updatedAtEpoch ≤ (loadTargetState
          (cycleIncremental hash B db file st acc callIdx).file
          B.targetFingerprint).lastLocalPushEpoch) ∧
    st.lastLocalPushEpoch ≤ (loadTargetState
        (cycleIncremental hash B db file st acc callIdx).file
        B.targetFingerprint).lastLocalPushEpoch ∧
    st.lastPullEpoch ≤ (loadTargetState
        (cycleIncremental hash B db file st acc callIdx).file
        B.targetFingerprint).lastPullEpoch ∧
    (∀ d ∈ (cycleIncremental hash B db file st acc callIdx).pulled,
        d.updatedAtEpoch ≤ (loadTargetState
          (cycleIncremental hash B db file st acc callIdx).file
          B.targetFingerprint).lastPullEpoch) := by
  by_cases hemp : (collectIncrementalDocuments hash db
      (max 0 (st.lastLocalPushEpoch - LOCAL_INCREMENTAL_OVERLAP_MS))).isEmpty = true
  · simp only [cycleIncremental, if_pos hemp] at hok ⊢
    rcases cyclePull_spec B db file st acc hok with ⟨hb, hp, hl, hpull⟩
    rw [cyclePull_pushed]
    refine ⟨?_, ?_, ?_, ?_⟩
    · intro b hbmem d hd
      rw [hp]
      exact hacc b hbmem d hd
    · rw [hp]
    · exact hl
    · exact hpull
  · cases hup : B.upsertResult callIdx with
    | error e =>
        simp only [cycleIncremental, if_neg hemp,
          pushDocumentsStep_err B callIdx file _ (by simpa using hemp) e hup] at hok
        simp at hok
    | ok u =>
        cases u
        simp only [cycleIncremental, if_neg hemp,
          pushDocumentsStep_ok B callIdx file _ (by simpa using hemp) hup] at hok ⊢
        set incDocs := collectIncrementalDocuments hash db
          (max 0 (st.lastLocalPushEpoch - LOCAL_INCREMENTAL_OVERLAP_MS)) with hinc
        set st1 : RemoteSyncTargetState := { st with
          lastLocalPushEpoch := max st.lastLocalPushEpoch (getMaxUpdatedEpoch incDocs) } with hst1
        have hacc1 : ∀ b ∈ acc ++ [incDocs], ∀ d ∈ b,
            d.updatedAtEpoch ≤ st1.lastLocalPushEpoch := by
          intro b hbmem d hd
          rcases List.mem_append.mp hbmem with hb1 | hb1
          · exact le_trans (hacc b hb1 d hd) (le_max_left _ _)
          · simp at hb1
            rw [hb1] at hd
            exact le_trans (le_getMaxUpdatedEpoch hd) (le_max_right _ _)
        rcases cyclePull_spec B db _ st1 (acc ++ [incDocs]) hok with ⟨hb, hp, hl, hpull⟩
        rw [cyclePull_pushed]
        refine ⟨?_, ?_, ?_, ?_⟩
        · intro b hbmem d hd
          rw [hp]
          exact hacc1 b hbmem d hd
        · rw [hp]
          exact le_max_left _ _
        · exact hl
        · exact hpull

theorem cycleIncremental_ok (hash : String → String) (B : BackendBehavior)
    (db : LocalDb) (file : RemoteSyncStateFile) (st : RemoteSyncTargetState)
    (acc : List (List RemoteMemoryDocument)) (callIdx : Nat)
    (hup : ∀ n, B.upsertResult n = .ok ())
    (hfetch : ∀ e, ∃ ds, B.fetchResult e = .ok ds) :
    (cycleIncremental hash B db file st acc callIdx).ok = true := by
  by_cases hemp : (collectIncrementalDocuments hash db
      (max 0 (st.lastLocalPushEpoch - LOCAL_INCREMENTAL_OVERLAP_MS))).isEmpty = true
  · simp only [cycleIncremental, if_pos hemp]
    exact cyclePull_ok B db file st acc hfetch
  · simp only [cycleIncremental, if_neg hemp,
      pushDocumentsStep_ok B callIdx file _ (by simpa using hemp) (hup callIdx)]
    exact cyclePull_ok B db _ _ _ hfetch

theorem performSynchronization_cursors (hash : String → String)
    (B : BackendBehavior) (db : LocalDb) (file : RemoteSyncStateFile)
    (bootstrapLocal : Bool)
    (hok : (performSynchronization hash B db file bootstrapLocal).ok = true) :
    (∀ b ∈ (performSynchronization hash B db file bootstrapLocal).pushed, ∀ d ∈ b,
        d.updatedAtEpoch ≤ (loadTargetState
          (performSynchronization hash B db file bootstrapLocal).file
          B.targetFingerprint).lastLocalPushEpoch) ∧
    (∀ d ∈ (performSynchronization hash B db file bootstrapLocal).pulled,
        d.updatedAtEpoch ≤ (loadTargetState
          (performSynchronization hash B db file bootstrapLocal).file
          B.targetFingerprint).lastPullEpoch) ∧
    (loadTargetState file B.targetFingerprint).lastLocalPushEpoch ≤
      (loadTargetState (performSynchronization hash B db file bootstrapLocal).file
        B.targetFingerprint).lastLocalPushEpoch ∧
    (loadTargetState file B.targetFingerprint).lastPullEpoch ≤
      (loadTargetState (performSynchronization hash B db file bootstrapLocal).file
        B.targetFingerprint).lastPullEpoch := by
  cases hinit : B.initResult with
  | error e => simp only [performSynchronization, hinit] at hok; simp at hok
  | ok u =>
      cases u
      simp only [performSynchronization, hinit] at hok ⊢
      by_cases hboot : (bootstrapLocal &&
          !(loadTargetState file B.targetFingerprint).bootstrapComplete) = true
      · rw [if_pos hboot] at hok ⊢
        by_cases hbe : (collectBootstrapDocuments hash db).isEmpty = true
        · rw [pushDocumentsStep_empty B 0 file _ hbe] at hok ⊢
          have hacc : ∀ b ∈ ([] : List (List RemoteMemoryDocument)), ∀ d ∈ b,
              d.updatedAtEpoch ≤ ({ loadTargetState file B.targetFingerprint with
                bootstrapComplete := true
                lastLocalPushEpoch := max (loadTargetState file B.targetFingerprint).lastLocalPushEpoch
                  (getMaxUpdatedEpoch (collectBootstrapDocuments hash db)) } :
                RemoteSyncTargetState).lastLocalPushEpoch := by
            intro b hb; simp at hb
          rcases cycleIncremental_spec hash B db file _ [] 0 hacc hok with
            ⟨h1, h2, h3, h4⟩
          exact ⟨h1, h4, le_trans (le_max_left _ _) h2, h3⟩
        · cases hup0 : B.upsertResult 0 with
          | error e =>
              rw [pushDocumentsStep_err B 0 file _ (by simpa using hbe) e hup0] at hok
              simp at hok
          | ok u =>
              cases u
              rw [pushDocumentsStep_ok B 0 file _ (by simpa using hbe) hup0] at hok ⊢
              have hacc : ∀ b ∈ [collectBootstrapDocuments hash db], ∀ d ∈ b,
                  d.updatedAtEpoch ≤ ({ loadTargetState file B.targetFingerprint with
                    bootstrapComplete := true
                    lastLocalPushEpoch := max (loadTargetState file B.targetFingerprint).lastLocalPushEpoch
                      (getMaxUpdatedEpoch (collectBootstrapDocuments hash db)) } :
                    RemoteSyncTargetState).lastLocalPushEpoch := by
                intro b hb d hd
                simp at hb
                rw [hb] at hd
                exact le_trans (le_getMaxUpdatedEpoch hd) (le_max_right _ _)
              rcases cycleIncremental_spec hash B db _ _ [collectBootstrapDocuments hash db]
                1 hacc hok with ⟨h1, h2, h3, h4⟩
              exact ⟨h1, h4, le_trans (le_max_left _ _) h2, h3⟩
      · rw [if_neg hboot] at hok ⊢
        have hacc : ∀ b ∈ ([] : List (List RemoteMemoryDocument)), ∀ d ∈ b,
            d.updatedAtEpoch ≤
              (loadTargetState file B.targetFingerprint).lastLocalPushEpoch := by
          intro b hb; simp at hb
        rcases cycleIncremental_spec hash B db file _ [] 0 hacc hok with ⟨h1, h2, h3, h4⟩
        exact ⟨h1, h4, h2, h3⟩

theorem performSynchronization_ok (hash : String → String) (B : BackendBehavior)
    (db : LocalDb) (file : RemoteSyncStateFile) (bootstrapLocal : Bool)
    (hinit : B.initResult = .ok ())
    (hup : ∀ n, B.upsertResult n = .ok ())
    (hfetch : ∀ e, ∃ ds, B.fetchResult e = .ok ds) :
    (performSynchronization hash B db file bootstrapLocal).ok = true := by
  simp only [performSynchronization, hinit]
  by_cases hboot : (bootstrapLocal &&
      !(loadTargetState file B.targetFingerprint).bootstrapComplete) = true
  · rw [if_pos hboot]
    by_cases hbe : (collectBootstrapDocuments hash db).isEmpty = true
    · rw [pushDocumentsStep_empty B 0 file _ hbe]
      exact cycleIncremental_ok hash B db file _ [] 0 hup hfetch
    · rw [pushDocumentsStep_ok B 0 file _ (by simpa using hbe) (hup 0)]
      exact cycleIncremental_ok hash B db _ _ _ 1 hup hfetch
  · rw [if_neg hboot]
    exact cycleIncremental_ok hash B db file _ [] 0 hup hfetch

theorem performSynchronization_fail_no_push (hash : String → String)
    (B : BackendBehavior) (db : LocalDb) (file : RemoteSyncStateFile)
    (bootstrapLocal : Bool)
    (hfail : (performSynchronization hash B db file bootstrapLocal).ok = false)
    (hnp : (performSynchronization hash B db file bootstrapLocal).pushed = []) :
    (performSynchronization hash B db file bootstrapLocal).file = file ∧
    (performSynchronization hash B db file bootstrapLocal).db = db := by
  cases hinit : B.initResult with
  | error e => simp only [performSynchronization, hinit]; simp
  | ok u =>
      cases u
      simp only [performSynchronization, hinit] at hfail hnp ⊢
      by_cases hboot : (bootstrapLocal &&
          !(loadTargetState file B.targetFingerprint).bootstrapComplete) = true
      · rw [if_pos hboot] at hfail hnp ⊢
        by_cases hbe : (collectBootstrapDocuments hash db).isEmpty = true
        · rw [pushDocumentsStep_empty B 0 file _ hbe] at hfail hnp ⊢
          exact cycleIncremental_fail_no_push hash B db file _ [] 0 hfail hnp
        · cases hup0 : B.upsertResult 0 with
          | error e =>
              rw [pushDocumentsStep_err B 0 file _ (by simpa using hbe) e hup0]
              simp
          | ok u =>
              cases u
              rw [pushDocumentsStep_ok B 0 file _ (by simpa using hbe) hup0] at hnp
              rcases cycleIncremental_pushed_prefix hash B db _ _
                [collectBootstrapDocuments hash db] 1 with ⟨rest, hrest⟩
              rw [hrest] at hnp
              simp at hnp
      · rw [if_neg hboot] at hfail hnp ⊢
        exact cycleIncremental_fail_no_push hash B db file _ [] 0 hfail hnp

/-- Claim C6: after every successful synchronization cycle the persisted
`lastLocalPushEpoch` dominates the `updatedAtEpoch` of every document pushed
in that cycle (bootstrap and incremental) and the persisted `lastPullEpoch`
dominates every fetched document's `updatedAtEpoch`; neither cursor ever
decreases across cycles. -/
theorem cycle_cursor_bounds (hash : String → String) (B : BackendBehavior)
    (db : LocalDb) (file : RemoteSyncStateFile) (bootstrapLocal : Bool)
    (hok : (performSynchronization hash B db file bootstrapLocal).ok = true) :
    (∀ b ∈ (performSynchronization hash B db file bootstrapLocal).pushed, ∀ d ∈ b,
        d.updatedAtEpoch ≤ (loadTargetState
          (performSynchronization hash B db file bootstrapLocal).file
          B.targetFingerprint).lastLocalPushEpoch) ∧
    (∀ d ∈ (performSynchronization hash B db file bootstrapLocal).pulled,
        d.updatedAtEpoch ≤ (loadTargetState
          (performSynchronization hash B db file bootstrapLocal).file
          B.targetFingerprint).lastPullEpoch) ∧
    (loadTargetState file B.targetFingerprint).lastLocalPushEpoch ≤
      (loadTargetState (performSynchronization hash B db file bootstrapLocal).file
        B.targetFingerprint).lastLocalPushEpoch ∧
    (loadTargetState file B.targetFingerprint).lastPullEpoch ≤
      (loadTargetState (performSynchronization hash B db file bootstrapLocal).file
        B.targetFingerprint).lastPullEpoch :=
  performSynchronization_cursors hash B db file bootstrapLocal hok

theorem cycle_cursor_bounds_witness :
    (performSynchronization exampleHash exampleHealthyBackend exampleDb
        emptyStateFile true).ok = true ∧
    (loadTargetState emptyStateFile exampleHealthyBackend.targetFingerprint).lastLocalPushEpoch ≤
      (loadTargetState (performSynchronization exampleHash exampleHealthyBackend
          exampleDb emptyStateFile true).file
        exampleHealthyBackend.targetFingerprint).lastLocalPushEpoch :=
  ⟨by decide, (cycle_cursor_bounds exampleHash exampleHealthyBackend exampleDb
    emptyStateFile true (by decide)).2.2.1⟩

/-- Claim C1 counterexample: a backend whose upserts succeed but whose fetch
rejects makes the cycle abort (a backend operation failed), yet the persisted
state file HAS changed, because the successful bootstrap push already
persisted an advanced `lastLocalPushEpoch`. This refutes the claim as stated
("any backend failure leaves the state file unchanged"). -/
theorem cycle_failure_changed_state_counterexample :
    (performSynchronization exampleHash exampleFetchFailBackend exampleDb
        emptyStateFile true).ok = false ∧
    (performSynchronization exampleHash exampleFetchFailBackend exampleDb
        emptyStateFile true).file ≠ emptyStateFile :=
  ⟨by decide, by decide⟩

/-- Claim C1 (amended): if a backend operation of a synchronization cycle
fails before any push batch of the cycle has succeeded — in particular when
`upsertDocuments` raises on the first push — the cycle aborts with the state
file (hence all persisted cursors) and the local store unchanged; and a cycle
run after the backend recovers completes with cursors never below their
previous values. -/
theorem cycle_fails_before_push_state_unchanged :
    (∀ (hash : String → String) (B : BackendBehavior) (db : LocalDb)
        (file : RemoteSyncStateFile) (bootstrapLocal : Bool),
        (performSynchronization hash B db file bootstrapLocal).ok = false →
        (performSynchronization hash B db file bootstrapLocal).pushed = [] →
        (performSynchronization hash B db file bootstrapLocal).file = file ∧
        (performSynchronization hash B db file bootstrapLocal).db = db) ∧
    (∀ (hash : String → String) (B : BackendBehavior) (db : LocalDb)
        (file : RemoteSyncStateFile) (bootstrapLocal : Bool),
        B.initResult = .ok () → (∀ n, B.upsertResult n = .ok ()) →
        (∀ e, ∃ ds, B.fetchResult e = .ok ds) →
        (performSynchronization hash B db file bootstrapLocal).ok = true ∧
        (loadTargetState file B.targetFingerprint).lastLocalPushEpoch ≤
          (loadTargetState (performSynchronization hash B db file bootstrapLocal).file
            B.targetFingerprint).lastLocalPushEpoch ∧
        (loadTargetState file B.targetFingerprint).lastPullEpoch ≤
          (loadTargetState (performSynchronization hash B db file bootstrapLocal).file
            B.targetFingerprint).lastPullEpoch) := by
  constructor
  · intro hash B db file bootstrapLocal hfail hnp
    exact performSynchronization_fail_no_push hash B db file bootstrapLocal hfail hnp
  · intro hash B db file bootstrapLocal hinit hup hfetch
    have hok := performSynchronization_ok hash B db file bootstrapLocal hinit hup hfetch
    have hc := performSynchronization_cursors hash B db file bootstrapLocal hok
    exact ⟨hok, hc.2.2.1, hc.2.2.2⟩

theorem cycle_fails_before_push_state_unchanged_witness :
    (performSynchronization exampleHash exampleInitFailBackend exampleDb
        emptyStateFile true).ok = false ∧
    (performSynchronization exampleHash exampleInitFailBackend exampleDb
        emptyStateFile true).pushed = [] ∧
    (performSynchronization exampleHash exampleInitFailBackend exampleDb
        emptyStateFile true).file = emptyStateFile ∧
    (performSynchronization exampleHash exampleHealthyBackend exampleDb
        emptyStateFile true).ok = true :=
  ⟨by decide, by decide,
   (cycle_fails_before_push_state_unchanged.1 exampleHash exampleInitFailBackend
      exampleDb emptyStateFile true (by decide) (by decide)).1,
   (cycle_fails_before_push_state_unchanged.2 exampleHash exampleHealthyBackend
      exampleDb emptyStateFile true rfl (fun n => rfl) (fun e => ⟨[], rfl⟩)).1⟩

theorem SessRel_symm {a b : SessionRow} (h : SessRel a b) : SessRel b a :=
  ⟨h.1.symm, fun m hbm ham => h.2 m ham hbm⟩

theorem resolve_cases (rows : List SessionRow) (s : RemoteSessionPayload)
    (r : SessionRow) :
    resolveImportedMemorySessionId rows s (some r) = r.memory_session_id ∨
    (∃ mv, s.memory_session_id = some mv ∧
      resolveImportedMemorySessionId rows s (some r) = some mv ∧
      ∀ a ∈ rows, a.content_session_id ≠ s.content_session_id →
        a.memory_session_id ≠ some mv) := by
  unfold resolveImportedMemorySessionId
  cases hT : jsTruthyOptString s.memory_session_id with
  | false => rw [if_pos rfl]; exact Or.inl rfl
  | true =>
      rw [if_neg (by simp)]
      cases hsm : s.memory_session_id with
      | none => rw [hsm] at hT; simp [jsTruthyOptString] at hT
      | some mv =>
          cases hcf : rows.find? (fun x =>
              x.memory_session_id == some mv &&
              x.content_session_id != s.content_session_id) with
          | some c => simp only [hcf]; exact Or.inl rfl
          | none =>
              simp only [hcf]
              refine Or.inr ⟨mv, rfl, rfl, ?_⟩
              intro a ha hac ham
              have hnot := List.find?_eq_none.mp hcf a ha
              simp only [Bool.and_eq_true, beq_iff_eq, bne_iff_ne, ne_eq,
                not_and] at hnot
              exact (hnot ham) hac

theorem resolve_none_cases (rows : List SessionRow) (s : RemoteSessionPayload) :
    resolveImportedMemorySessionId rows s none = none ∨
    (∃ mv, s.memory_session_id = some mv ∧
      resolveImportedMemorySessionId rows s none = some mv ∧
      ∀ a ∈ rows, a.content_session_id ≠ s.content_session_id →
        a.memory_session_id ≠ some mv) := by
  unfold resolveImportedMemorySessionId
  cases hT : jsTruthyOptString s.memory_session_id with
  | false => rw [if_pos rfl]; exact Or.inl rfl
  | true =>
      rw [if_neg (by simp)]
      cases hsm : s.memory_session_id with
      | none => rw [hsm] at hT; simp [jsTruthyOptString] at hT
      | some mv =>
          cases hcf : rows.find? (fun x =>
              x.memory_session_id == some mv &&
              x.content_session_id != s.content_session_id) with
          | some c => simp only [hcf]; exact Or.inl rfl
          | none =>
              simp only [hcf]
              refine Or.inr ⟨mv, rfl, rfl, ?_⟩
              intro a ha hac ham
              have hnot := List.find?_eq_none.mp hcf a ha
              simp only [Bool.and_eq_true, beq_iff_eq, bne_iff_ne, ne_eq,
                not_and] at hnot
              exact (hnot ham) hac

theorem upsertSessionRows_pairwise (rows : List SessionRow)
    (s : RemoteSessionPayload) (hPW : rows.Pairwise SessRel) :
    ((upsertSessionRows rows s).2).Pairwise SessRel := by
  cases hf : rows.find? (sessionContentMatch s.content_session_id) with
  | none =>
      simp only [upsertSessionRows, hf]
      rw [List.pairwise_append]
      refine ⟨hPW, by simp, ?_⟩
      intro a ha b hb
      simp only [List.mem_singleton] at hb
      subst hb
      have hane : a.content_session_id ≠ s.content_session_id := by
        have := List.find?_eq_none.mp hf a ha
        simpa [sessionContentMatch] using this
      refine ⟨hane, ?_⟩
      intro m ham
      show resolveImportedMemorySessionId rows s none ≠ some m
      rcases resolve_none_cases rows s with heq | ⟨mv, hsm, heq, hall⟩
      · rw [heq]; simp
      · rw [heq]
        have hnmv := hall a ha hane
        intro hcontra
        injection hcontra with h
        rw [← h] at ham
        exact hnmv ham
  | some r =>
      have hrq : sessionContentMatch s.content_session_id r = true :=
        List.find?_some hf
      have hrc : r.content_session_id = s.content_session_id := by
        simpa [sessionContentMatch] using hrq
      simp only [upsertSessionRows, hf]
      by_cases hch : sessionChanged (mergeSessionRow rows s r) r = true
      · rw [if_pos hch]
        have hnextmem : (mergeSessionRow rows s r).memory_session_id =
            resolveImportedMemorySessionId rows s (some r) := rfl
        refine pairwise_replaceFirst hf hPW ?_ ?_
        · intro a ha hrel
          refine ⟨hrel.1, ?_⟩
          intro m ham
          rw [hnextmem]
          rcases resolve_cases rows s r with heq | ⟨mv, hsm, heq, hall⟩
          · rw [heq]; exact hrel.2 m ham
          · rw [heq]
            have hane : a.content_session_id ≠ s.content_session_id := by
              rw [← hrc]; exact hrel.1
            have hnmv := hall a ha hane
            intro hcontra
            injection hcontra with h
            rw [← h] at ham
            exact hnmv ham
        · intro a ha hrel
          refine ⟨hrel.1, ?_⟩
          intro m hnm ham
          rw [hnextmem] at hnm
          rcases resolve_cases rows s r with heq | ⟨mv, hsm, heq, hall⟩
          · rw [heq] at hnm; exact hrel.2 m hnm ham
          · rw [heq] at hnm
            have hane : a.content_session_id ≠ s.content_session_id := by
              rw [← hrc]; exact (SessRel_symm hrel).1
            injection hnm with h
            rw [← h] at ham
            exact hall a ha hane ham
      · rw [if_neg hch]
        exact hPW

theorem importStep_inv (db : LocalDb) (d : RemoteMemoryDocument)
    (h : DbInvariants db) : DbInvariants (importStep db d).2 := by
  rcases h with ⟨hs, hp⟩
  cases hd : d.payload with
  | session p =>
      simp only [importStep, hd, upsertSession]
      exact ⟨upsertSessionRows_pairwise db.sdk_sessions p hs, hp⟩
  | prompt p =>
      simp only [importStep, hd, upsertPrompt]
      cases hf1 : db.user_prompts.find?
          (promptKeyMatch p.content_session_id p.prompt_number) with
      | some x => exact ⟨hs, hp⟩
      | none =>
          cases hf2 : db.sdk_sessions.find?
              (sessionContentMatch p.content_session_id) with
          | none => exact ⟨hs, hp⟩
          | some x =>
              refine ⟨hs, ?_⟩
              rw [List.pairwise_append]
              refine ⟨hp, by simp, ?_⟩
              intro a ha b hb
              simp only [List.mem_singleton] at hb
              subst hb
              have := List.find?_eq_none.mp hf1 a ha
              simp only [promptKeyMatch, Bool.and_eq_true, beq_iff_eq,
                not_and] at this
              unfold PromptRel
              by_cases hc : a.content_session_id = p.content_session_id
              · exact Or.inr (this hc)
              · exact Or.inl hc
  | observation p =>
      simp only [importStep, hd, upsertObservation]
      cases hf1 : db.sdk_sessions.find? (sessionMemoryMatch p.memory_session_id) with
      | none => exact ⟨hs, hp⟩
      | some x =>
          cases hf2 : db.observations.find? (observationDedupMatch p) with
          | some y => exact ⟨hs, hp⟩
          | none => exact ⟨hs, hp⟩
  | summary p =>
      simp only [importStep, hd, upsertSummary]
      cases hf1 : db.sdk_sessions.find? (sessionMemoryMatch p.memory_session_id) with
      | none => exact ⟨hs, hp⟩
      | some x =>
          cases hf2 : db.session_summaries.find? (summaryDedupMatch p) with
          | some y => exact ⟨hs, hp⟩
          | none => exact ⟨hs, hp⟩

theorem runDocs_inv (docs : List RemoteMemoryDocument) :
    ∀ db, DbInvariants db → DbInvariants (runDocs db docs).2 := by
  induction docs with
  | nil => intro db h; exact h
  | cons d rest ih =>
      intro db h
      simp only [runDocs]
      exact ih _ (importStep_inv db d h)

theorem upsertSession_conflict_keeps_binding (db : LocalDb)
    (s : RemoteSessionPayload) (m : String)
    (hm : s.memory_session_id = some m)
    (hconf : ∃ r ∈ db.sdk_sessions, r.memory_session_id = some m ∧
      r.content_session_id ≠ s.content_session_id) :
    ((upsertSession db s).2.sdk_sessions.find?
        (sessionContentMatch s.content_session_id)).bind
      (fun x => x.memory_session_id) =
    (db.sdk_sessions.find? (sessionContentMatch s.content_session_id)).bind
      (fun x => x.memory_session_id) := by
  have hres : ∀ existing : Option SessionRow,
      resolveImportedMemorySessionId db.sdk_sessions s existing =
        existing.bind (fun x => x.memory_session_id) := by
    intro existing
    unfold resolveImportedMemorySessionId
    cases hT : jsTruthyOptString s.memory_session_id with
    | false => rw [if_pos rfl]
    | true =>
        rw [if_neg (by simp)]
        rcases hconf with ⟨r, hr, hrm, hrc⟩
        cases hcf : db.sdk_sessions.find? (fun x =>
            x.memory_session_id == s.memory_session_id &&
            x.content_session_id != s.content_session_id) with
        | some c => simp only [hcf]
        | none =>
            have := List.find?_eq_none.mp hcf r hr
            simp only [Bool.and_eq_true, beq_iff_eq, bne_iff_ne, ne_eq,
              not_and] at this
            exact absurd hrc (this (by rw [hrm, hm]))
  cases hf : db.sdk_sessions.find? (sessionContentMatch s.content_session_id) with
  | none =>
      simp only [upsertSession, upsertSessionRows, hf]
      have hq : sessionContentMatch s.content_session_id
          (insertedSessionRow db.sdk_sessions s) = true := by
        simp [sessionContentMatch, insertedSessionRow]
      rw [List.find?_append, hf]
      simp only [Option.none_or]
      rw [List.find?_cons_of_pos _ hq]
      simp [insertedSessionRow, hres none]
  | some r =>
      have hq : sessionContentMatch s.content_session_id r = true :=
        List.find?_some hf
      have hnextmem : (mergeSessionRow db.sdk_sessions s r).memory_session_id =
          r.memory_session_id := by
        show resolveImportedMemorySessionId db.sdk_sessions s (some r) =
          r.memory_session_id
        rw [hres (some r)]
        rfl
      by_cases hch : sessionChanged (mergeSessionRow db.sdk_sessions s r) r = true
      · have hq2 : sessionContentMatch s.content_session_id
            (mergeSessionRow db.sdk_sessions s r) = true := hq
        simp only [upsertSession, upsertSessionRows, hf, hch, if_true]
        rw [find?_replaceFirst_self hf hq2]
        simp [hnextmem]
      · have hch2 : sessionChanged (mergeSessionRow db.sdk_sessions s r) r = false := by
          simpa using hch
        simp [upsertSession, upsertSessionRows, hf, hch2]

/-- Claim C3: every import preserves the three local uniqueness invariants —
unique `content_session_id`, unique `(content_session_id, prompt_number)`,
and unique non-null `memory_session_id` (bundled in `DbInvariants`); and when
an imported session carries a `memory_session_id` already bound to a
different `content_session_id`, the existing local binding for the imported
`content_session_id` is kept (null when there is no existing row) while the
rest of the batch still applies. -/
theorem imports_preserve_uniqueness :
    (∀ (db : LocalDb) (documents : List RemoteMemoryDocument),
        DbInvariants db → DbInvariants (importRemoteDocuments db documents).2) ∧
    (∀ (db : LocalDb) (s : RemoteSessionPayload) (m : String),
        s.memory_session_id = some m →
        (∃ r ∈ db.sdk_sessions, r.memory_session_id = some m ∧
          r.content_session_id ≠ s.content_session_id) →
        ((upsertSession db s).2.sdk_sessions.find?
            (sessionContentMatch s.content_session_id)).bind
          (fun x => x.memory_session_id) =
        (db.sdk_sessions.find? (sessionContentMatch s.content_session_id)).bind
          (fun x => x.memory_session_id)) := by
  constructor
  · intro db documents h
    exact runDocs_inv (orderDocuments documents) db h
  · intro db s m hm hconf
    exact upsertSession_conflict_keeps_binding db s m hm hconf

theorem imports_preserve_uniqueness_witness :
    DbInvariants exampleDb ∧
    DbInvariants (importRemoteDocuments exampleDb exampleConflictBatch).2 ∧
    ((upsertSession exampleDb { exampleSessionPayload with
        content_session_id := "c2", memory_session_id := some "m" }).2.sdk_sessions.find?
        (sessionContentMatch "c2")).bind (fun x => x.memory_session_id) =
      (exampleDb.sdk_sessions.find? (sessionContentMatch "c2")).bind
        (fun x => x.memory_session_id) := by
  have hinv : DbInvariants exampleDb := by
    constructor
    · simp [exampleDb]
    · simp [exampleDb]
  refine ⟨hinv, imports_preserve_uniqueness.1 exampleDb exampleConflictBatch hinv, ?_⟩
  exact imports_preserve_uniqueness.2 exampleDb
    { exampleSessionPayload with content_session_id := "c2", memory_session_id := some "m" }
    "m" rfl ⟨exampleSessionRow, by simp [exampleDb], rfl, by decide⟩

theorem jsOrOptString_getD (a : Option String) :
    jsOrOptString a (some (a.getD "")) = some (a.getD "") := by
  cases a with
  | none => rfl
  | some t => by_cases ht : t = "" <;> simp [jsOrOptString, ht]

theorem resolve_insert_idem (rows : List SessionRow) (s : RemoteSessionPayload)
    (nr : SessionRow) (hnrc : nr.content_session_id = s.content_session_id)
    (hnrm : nr.memory_session_id = resolveImportedMemorySessionId rows s none) :
    resolveImportedMemorySessionId (rows ++ [nr]) s (some nr) =
      nr.memory_session_id := by
  unfold resolveImportedMemorySessionId
  by_cases hT : jsTruthyOptString s.memory_session_id = false
  · rw [if_pos hT]
    rfl
  · rw [if_neg hT]
    have hsingle : List.find? (fun x =>
        x.memory_session_id == s.memory_session_id &&
        x.content_session_id != s.content_session_id) [nr] = none := by
      simp [hnrc]
    rw [List.find?_append, hsingle]
    cases hcf : rows.find? (fun x =>
        x.memory_session_id == s.memory_session_id &&
        x.content_session_id != s.content_session_id) with
    | some c => rfl
    | none =>
        show s.memory_session_id = nr.memory_session_id
        rw [hnrm]
        unfold resolveImportedMemorySessionId
        rw [if_neg hT, hcf]

theorem resolve_replace_idem (rows : List SessionRow) (s : RemoteSessionPayload)
    (r : SessionRow)
    (hf : rows.find? (sessionContentMatch s.content_session_id) = some r) :
    resolveImportedMemorySessionId
        (replaceFirst (sessionContentMatch s.content_session_id)
          (mergeSessionRow rows s r) rows) s
        (some (mergeSessionRow rows s r)) =
      (mergeSessionRow rows s r).memory_session_id := by
  have hrc : r.content_session_id = s.content_session_id := by
    simpa [sessionContentMatch] using List.find?_some hf
  unfold resolveImportedMemorySessionId
  by_cases hT : jsTruthyOptString s.memory_session_id = false
  · rw [if_pos hT]
    rfl
  · rw [if_neg hT]
    have hpnext : (fun x =>
        x.memory_session_id == s.memory_session_id &&
        x.content_session_id != s.content_session_id)
        (mergeSessionRow rows s r) = false := by
      have : (mergeSessionRow rows s r).content_session_id = s.content_session_id := hrc
      simp [this]
    have hall : ∀ x ∈ rows, sessionContentMatch s.content_session_id x = true →
        (fun x => x.memory_session_id == s.memory_session_id &&
          x.content_session_id != s.content_session_id) x = false := by
      intro x hx hqx
      have : x.content_session_id = s.content_session_id := by
        simpa [sessionContentMatch] using hqx
      simp [this]
    rw [@find?_replaceFirst_of_false _ (sessionContentMatch s.content_session_id)
      (fun x => x.memory_session_id == s.memory_session_id &&
        x.content_session_id != s.content_session_id)
      (mergeSessionRow rows s r) rows hpnext hall]
    cases hcf : rows.find? (fun x =>
        x.memory_session_id == s.memory_session_id &&
        x.content_session_id != s.content_session_id) with
    | some c => rfl
    | none =>
        show s.memory_session_id = (mergeSessionRow rows s r).memory_session_id
        have : (mergeSessionRow rows s r).memory_session_id =
            resolveImportedMemorySessionId rows s (some r) := rfl
        rw [this]
        unfold resolveImportedMemorySessionId
        rw [if_neg hT, hcf]

theorem mergeSessionRow_insert_idem (rows : List SessionRow)
    (s : RemoteSessionPayload) :
    mergeSessionRow (rows ++ [insertedSessionRow rows s]) s
      (insertedSessionRow rows s) = insertedSessionRow rows s := by
  have hres := resolve_insert_idem rows s (insertedSessionRow rows s) rfl rfl
  unfold mergeSessionRow
  rw [hres]
  simp [insertedSessionRow, jsOrString_self, jsNullish_self, jsOrInt_self,
    selectSessionStatus_self, jsOrOptString_getD]

theorem mergeSessionRow_replace_idem (rows : List SessionRow)
    (s : RemoteSessionPayload) (r : SessionRow)
    (hf : rows.find? (sessionContentMatch s.content_session_id) = some r) :
    mergeSessionRow
        (replaceFirst (sessionContentMatch s.content_session_id)
          (mergeSessionRow rows s r) rows) s (mergeSessionRow rows s r) =
      mergeSessionRow rows s r := by
  have hres := resolve_replace_idem rows s r hf
  have hproj : (mergeSessionRow rows s r).project = jsOrString s.project r.project := rfl
  have hup : (mergeSessionRow rows s r).user_prompt = jsOrOptString s.user_prompt r.user_prompt := rfl
  have hct : (mergeSessionRow rows s r).custom_title = jsNullish s.custom_title r.custom_title := rfl
  have hsa : (mergeSessionRow rows s r).started_at = jsOrString r.started_at s.started_at := rfl
  have hse : (mergeSessionRow rows s r).started_at_epoch = jsOrInt r.started_at_epoch s.started_at_epoch := rfl
  have hca : (mergeSessionRow rows s r).completed_at = jsNullish s.completed_at r.completed_at := rfl
  have hce : (mergeSessionRow rows s r).completed_at_epoch = jsNullish s.completed_at_epoch r.completed_at_epoch := rfl
  have hst : (mergeSessionRow rows s r).status = selectSessionStatus r.status s.status := rfl
  set n := mergeSessionRow rows s r with hn
  unfold mergeSessionRow
  rw [hres, hproj, hup, hct, hsa, hse, hca, hce, hst,
    jsOrString_left_idem, jsOrOptString_left_idem, jsNullish_left_idem,
    jsOrString_right_idem, jsOrInt_right_idem, jsNullish_left_idem,
    jsNullish_left_idem, selectSessionStatus_idem,
    ← hproj, ← hup, ← hct, ← hsa, ← hse, ← hca, ← hce, ← hst]

theorem upsertSessionRows_idem (rows : List SessionRow)
    (s : RemoteSessionPayload) :
    upsertSessionRows (upsertSessionRows rows s).2 s =
      (false, (upsertSessionRows rows s).2) := by
  cases hf : rows.find? (sessionContentMatch s.content_session_id) with
  | none =>
      have hrows1 : (upsertSessionRows rows s).2 =
          rows ++ [insertedSessionRow rows s] := by
        simp [upsertSessionRows, hf]
      have hq : sessionContentMatch s.content_session_id
          (insertedSessionRow rows s) = true := by
        simp [sessionContentMatch, insertedSessionRow]
      have hfind1 : (rows ++ [insertedSessionRow rows s]).find?
          (sessionContentMatch s.content_session_id) =
          some (insertedSessionRow rows s) := by
        rw [List.find?_append, hf]
        simp only [Option.none_or]
        exact List.find?_cons_of_pos _ hq
      rw [hrows1]
      have hchanged : sessionChanged
          (mergeSessionRow (rows ++ [insertedSessionRow rows s]) s
            (insertedSessionRow rows s)) (insertedSessionRow rows s) = false := by
        rw [mergeSessionRow_insert_idem]
        exact sessionChanged_self _
      simp [upsertSessionRows, hfind1, hchanged]
  | some r =>
      by_cases hch : sessionChanged (mergeSessionRow rows s r) r = true
      · have hrows1 : (upsertSessionRows rows s).2 =
            replaceFirst (sessionContentMatch s.content_session_id)
              (mergeSessionRow rows s r) rows := by
          simp [upsertSessionRows, hf, hch]
        have hqr : sessionContentMatch s.content_session_id r = true :=
          List.find?_some hf
        have hqnext : sessionContentMatch s.content_session_id
            (mergeSessionRow rows s r) = true := hqr
        have hfind1 : (replaceFirst (sessionContentMatch s.content_session_id)
            (mergeSessionRow rows s r) rows).find?
            (sessionContentMatch s.content_session_id) =
            some (mergeSessionRow rows s r) :=
          find?_replaceFirst_self hf hqnext
        rw [hrows1]
        have hchanged : sessionChanged
            (mergeSessionRow (replaceFirst (sessionContentMatch s.content_session_id)
              (mergeSessionRow rows s r) rows) s (mergeSessionRow rows s r))
            (mergeSessionRow rows s r) = false := by
          rw [mergeSessionRow_replace_idem rows s r hf]
          exact sessionChanged_self _
        simp [upsertSessionRows, hfind1, hchanged]
      · have hch2 : sessionChanged (mergeSessionRow rows s r) r = false := by
          simpa using hch
        have hrows1 : (upsertSessionRows rows s).2 = rows := by
          simp [upsertSessionRows, hf, hch2]
        rw [hrows1]
        simp [upsertSessionRows, hf, hch2]

theorem upsertSession_noop_of_rows (rows : List SessionRow)
    (s : RemoteSessionPayload) (db2 : LocalDb)
    (h : db2.sdk_sessions = (upsertSessionRows rows s).2) :
    upsertSession db2 s = (false, db2) := by
  unfold upsertSession
  rw [h, upsertSessionRows_idem rows s, ← h]

theorem isSessionDoc_payload {d : RemoteMemoryDocument}
    (h : isSessionDoc d = true) : ∃ p, d.payload = RemoteDocPayload.session p := by
  cases hp : d.payload with
  | session p => exact ⟨p, rfl⟩
  | prompt p => simp [isSessionDoc, RemoteMemoryDocument.kind, hp] at h
  | observation p => simp [isSessionDoc, RemoteMemoryDocument.kind, hp] at h
  | summary p => simp [isSessionDoc, RemoteMemoryDocument.kind, hp] at h

theorem isPromptDoc_payload {d : RemoteMemoryDocument}
    (h : isPromptDoc d = true) : ∃ p, d.payload = RemoteDocPayload.prompt p := by
  cases hp : d.payload with
  | prompt p => exact ⟨p, rfl⟩
  | session p => simp [isPromptDoc, RemoteMemoryDocument.kind, hp] at h
  | observation p => simp [isPromptDoc, RemoteMemoryDocument.kind, hp] at h
  | summary p => simp [isPromptDoc, RemoteMemoryDocument.kind, hp] at h

theorem isObservationDoc_payload {d : RemoteMemoryDocument}
    (h : isObservationDoc d = true) :
    ∃ p, d.payload = RemoteDocPayload.observation p := by
  cases hp : d.payload with
  | observation p => exact ⟨p, rfl⟩
  | session p => simp [isObservationDoc, RemoteMemoryDocument.kind, hp] at h
  | prompt p => simp [isObservationDoc, RemoteMemoryDocument.kind, hp] at h
  | summary p => simp [isObservationDoc, RemoteMemoryDocument.kind, hp] at h

theorem isSummaryDoc_payload {d : RemoteMemoryDocument}
    (h : isSummaryDoc d = true) : ∃ p, d.payload = RemoteDocPayload.summary p := by
  cases hp : d.payload with
  | summary p => exact ⟨p, rfl⟩
  | session p => simp [isSummaryDoc, RemoteMemoryDocument.kind, hp] at h
  | prompt p => simp [isSummaryDoc, RemoteMemoryDocument.kind, hp] at h
  | observation p => simp [isSummaryDoc, RemoteMemoryDocument.kind, hp] at h

theorem upsertPrompt_noop (db : LocalDb) (p : RemotePromptPayload)
    (h : promptHandled db p) : upsertPrompt db p = (false, db) := by
  unfold upsertPrompt
  cases hf1 : db.user_prompts.find?
      (promptKeyMatch p.content_session_id p.prompt_number) with
  | some x => rfl
  | none =>
      rcases h with hex | hall
      · rcases hex with ⟨r, hr, hm⟩
        have hsome : (db.user_prompts.find?
            (promptKeyMatch p.content_session_id p.prompt_number)).isSome = true :=
          List.find?_isSome.mpr ⟨r, hr, hm⟩
        rw [hf1] at hsome
        simp at hsome
      · rw [List.find?_eq_none.mpr (fun x hx => by simp [hall x hx])]

theorem upsertObservation_noop (db : LocalDb) (o : RemoteObservationPayload)
    (h : observationHandled db o) : upsertObservation db o = (false, db) := by
  unfold upsertObservation
  cases hf1 : db.sdk_sessions.find? (sessionMemoryMatch o.memory_session_id) with
  | none => rfl
  | some x =>
      rcases h with hall | hex
      · rw [List.find?_eq_none.mpr (fun r hr => by simp [hall r hr])] at hf1
        simp at hf1
      · cases hf2 : db.observations.find? (observationDedupMatch o) with
        | some y => rfl
        | none =>
            rcases hex with ⟨r, hr, hm⟩
            have hsome : (db.observations.find?
                (observationDedupMatch o)).isSome = true :=
              List.find?_isSome.mpr ⟨r, hr, hm⟩
            rw [hf2] at hsome
            simp at hsome

theorem upsertSummary_noop (db : LocalDb) (u : RemoteSummaryPayload)
    (h : summaryHandled db u) : upsertSummary db u = (false, db) := by
  unfold upsertSummary
  cases hf1 : db.sdk_sessions.find? (sessionMemoryMatch u.memory_session_id) with
  | none => rfl
  | some x =>
      rcases h with hall | hex
      · rw [List.find?_eq_none.mpr (fun r hr => by simp [hall r hr])] at hf1
        simp at hf1
      · cases hf2 : db.session_summaries.find? (summaryDedupMatch u) with
        | some y => rfl
        | none =>
            rcases hex with ⟨r, hr, hm⟩
            have hsome : (db.session_summaries.find?
                (summaryDedupMatch u)).isSome = true :=
              List.find?_isSome.mpr ⟨r, hr, hm⟩
            rw [hf2] at hsome
            simp at hsome

theorem promptHandled_mono {db1 db2 : LocalDb} {p : RemotePromptPayload}
    (h : promptHandled db1 p) (hs : db2.sdk_sessions = db1.sdk_sessions)
    (hp : ∀ r ∈ db1.user_prompts, r ∈ db2.user_prompts) :
    promptHandled db2 p := by
  rcases h with ⟨r, hr, hm⟩ | hall
  · exact Or.inl ⟨r, hp r hr, hm⟩
  · exact Or.inr (by rw [hs]; exact hall)

theorem observationHandled_mono {db1 db2 : LocalDb} {o : RemoteObservationPayload}
    (h : observationHandled db1 o) (hs : db2.sdk_sessions = db1.sdk_sessions)
    (ho : ∀ r ∈ db1.observations, r ∈ db2.observations) :
    observationHandled db2 o := by
  rcases h with hall | ⟨r, hr, hm⟩
  · exact Or.inl (by rw [hs]; exact hall)
  · exact Or.inr ⟨r, ho r hr, hm⟩

theorem summaryHandled_mono {db1 db2 : LocalDb} {u : RemoteSummaryPayload}
    (h : summaryHandled db1 u) (hs : db2.sdk_sessions = db1.sdk_sessions)
    (hu : ∀ r ∈ db1.session_summaries, r ∈ db2.session_summaries) :
    summaryHandled db2 u := by
  rcases h with hall | ⟨r, hr, hm⟩
  · exact Or.inl (by rw [hs]; exact hall)
  · exact Or.inr ⟨r, hu r hr, hm⟩

theorem runDocs_noop (docs : List RemoteMemoryDocument) (db : LocalDb)
    (h : ∀ d ∈ docs, importStep db d = (false, db)) : runDocs db docs = (0, db) := by
  induction docs with
  | nil => rfl
  | cons d rest ih =>
      simp only [runDocs, h d (by simp)]
      rw [ih (fun x hx => h x (List.mem_cons_of_mem _ hx))]
      simp

theorem runDocs_append (a b : List RemoteMemoryDocument) :
    ∀ db : LocalDb, runDocs db (a ++ b) =
      ((runDocs db a).1 + (runDocs (runDocs db a).2 b).1,
       (runDocs (runDocs db a).2 b).2) := by
  induction a with
  | nil => intro db; simp [runDocs]
  | cons d rest ih =>
      intro db
      simp only [List.cons_append, runDocs, List.append_eq]
      rw [ih (importStep db d).2]
      simp [Nat.add_assoc]

theorem runDocs_promptPhase (P : List RemoteMemoryDocument) :
    ∀ db : LocalDb, (∀ d ∈ P, isPromptDoc d = true) →
    (runDocs db P).2.sdk_sessions = db.sdk_sessions ∧
    (runDocs db P).2.observations = db.observations ∧
    (runDocs db P).2.session_summaries = db.session_summaries ∧
    (∀ r ∈ db.user_prompts, r ∈ (runDocs db P).2.user_prompts) ∧
    (∀ d ∈ P, ∀ p, d.payload = RemoteDocPayload.prompt p →
      promptHandled (runDocs db P).2 p) := by
  induction P with
  | nil =>
      intro db h
      exact ⟨rfl, rfl, rfl, fun r hr => hr, by simp⟩
  | cons d rest ih =>
      intro db h
      obtain ⟨p0, hp0⟩ := isPromptDoc_payload (h d (by simp))
      have hstep : (importStep db d).2.sdk_sessions = db.sdk_sessions ∧
          (importStep db d).2.observations = db.observations ∧
          (importStep db d).2.session_summaries = db.session_summaries ∧
          (∀ r ∈ db.user_prompts, r ∈ (importStep db d).2.user_prompts) ∧
          promptHandled (importStep db d).2 p0 := by
        simp only [importStep, hp0]
        unfold upsertPrompt
        cases hf1 : db.user_prompts.find?
            (promptKeyMatch p0.content_session_id p0.prompt_number) with
        | some x =>
            exact ⟨rfl, rfl, rfl, fun r hr => hr,
              Or.inl ⟨x, List.mem_of_find?_eq_some hf1, List.find?_some hf1⟩⟩
        | none =>
            cases hf2 : db.sdk_sessions.find?
                (sessionContentMatch p0.content_session_id) with
            | none =>
                refine ⟨rfl, rfl, rfl, fun r hr => hr, Or.inr ?_⟩
                intro r hr
                have := List.find?_eq_none.mp hf2 r hr
                simpa using this
            | some x =>
                refine ⟨rfl, rfl, rfl, fun r hr => List.mem_append_left _ hr,
                  Or.inl ⟨insertedPromptRow db.user_prompts p0,
                    List.mem_append_right _ (by simp), ?_⟩⟩
                simp [promptKeyMatch, insertedPromptRow]
      rcases ih (importStep db d).2 (fun x hx => h x (List.mem_cons_of_mem _ hx)) with
        ⟨i1, i2, i3, i4, i5⟩
      simp only [runDocs]
      refine ⟨?_, ?_, ?_, ?_, ?_⟩
      · rw [i1, hstep.1]
      · rw [i2, hstep.2.1]
      · rw [i3, hstep.2.2.1]
      · intro r hr
        exact i4 r (hstep.2.2.2.1 r hr)
      · intro x hx p hp
        rcases List.mem_cons.mp hx with hx1 | hx1
        · subst hx1
          have hpp : p = p0 := by
            rw [hp0] at hp
            injection hp with he
            exact he.symm
          subst hpp
          exact promptHandled_mono hstep.2.2.2.2 i1 i4
        · exact i5 x hx1 p hp

theorem runDocs_observationPhase (Ob : List RemoteMemoryDocument) :
    ∀ db : LocalDb, (∀ d ∈ Ob, isObservationDoc d = true) →
    (runDocs db Ob).2.sdk_sessions = db.sdk_sessions ∧
    (runDocs db Ob).2.user_prompts = db.user_prompts ∧
    (runDocs db Ob).2.session_summaries = db.session_summaries ∧
    (∀ r ∈ db.observations, r ∈ (runDocs db Ob).2.observations) ∧
    (∀ d ∈ Ob, ∀ o, d.payload = RemoteDocPayload.observation o →
      observationHandled (runDocs db Ob).2 o) := by
  induction Ob with
  | nil =>
      intro db h
      exact ⟨rfl, rfl, rfl, fun r hr => hr, by simp⟩
  | cons d rest ih =>
      intro db h
      obtain ⟨o0, ho0⟩ := isObservationDoc_payload (h d (by simp))
      have hstep : (importStep db d).2.sdk_sessions = db.sdk_sessions ∧
          (importStep db d).2.user_prompts = db.user_prompts ∧
          (importStep db d).2.session_summaries = db.session_summaries ∧
          (∀ r ∈ db.observations, r ∈ (importStep db d).2.observations) ∧
          observationHandled (importStep db d).2 o0 := by
        simp only [importStep, ho0]
        unfold upsertObservation
        cases hf1 : db.sdk_sessions.find?
            (sessionMemoryMatch o0.memory_session_id) with
        | none =>
            refine ⟨rfl, rfl, rfl, fun r hr => hr, Or.inl ?_⟩
            intro r hr
            have := List.find?_eq_none.mp hf1 r hr
            simpa using this
        | some x =>
            cases hf2 : db.observations.find? (observationDedupMatch o0) with
            | some y =>
                exact ⟨rfl, rfl, rfl, fun r hr => hr,
                  Or.inr ⟨y, List.mem_of_find?_eq_some hf2, List.find?_some hf2⟩⟩
            | none =>
                refine ⟨rfl, rfl, rfl, fun r hr => List.mem_append_left _ hr,
                  Or.inr ⟨insertedObservationRow db.observations o0,
                    List.mem_append_right _ (by simp), ?_⟩⟩
                simp [observationDedupMatch, insertedObservationRow]
      rcases ih (importStep db d).2 (fun x hx => h x (List.mem_cons_of_mem _ hx)) with
        ⟨i1, i2, i3, i4, i5⟩
      simp only [runDocs]
      refine ⟨?_, ?_, ?_, ?_, ?_⟩
      · rw [i1, hstep.1]
      · rw [i2, hstep.2.1]
      · rw [i3, hstep.2.2.1]
      · intro r hr
        exact i4 r (hstep.2.2.2.1 r hr)
      · intro x hx o hp
        rcases List.mem_cons.mp hx with hx1 | hx1
        · subst hx1
          have hoo : o = o0 := by
            rw [ho0] at hp
            injection hp with he
            exact he.symm
          subst hoo
          exact observationHandled_mono hstep.2.2.2.2 i1 i4
        · exact i5 x hx1 o hp

theorem runDocs_summaryPhase (U : List RemoteMemoryDocument) :
    ∀ db : LocalDb, (∀ d ∈ U, isSummaryDoc d = true) →
    (runDocs db U).2.sdk_sessions = db.sdk_sessions ∧
    (runDocs db U).2.user_prompts = db.user_prompts ∧
    (runDocs db U).2.observations = db.observations ∧
    (∀ r ∈ db.session_summaries, r ∈ (runDocs db U).2.session_summaries) ∧
    (∀ d ∈ U, ∀ u, d.payload = RemoteDocPayload.summary u →
      summaryHandled (runDocs db U).2 u) := by
  induction U with
  | nil =>
      intro db h
      exact ⟨rfl, rfl, rfl, fun r hr => hr, by simp⟩
  | cons d rest ih =>
      intro db h
      obtain ⟨u0, hu0⟩ := isSummaryDoc_payload (h d (by simp))
      have hstep : (importStep db d).2.sdk_sessions = db.sdk_sessions ∧
          (importStep db d).2.user_prompts = db.user_prompts ∧
          (importStep db d).2.observations = db.observations ∧
          (∀ r ∈ db.session_summaries, r ∈ (importStep db d).2.session_summaries) ∧
          summaryHandled (importStep db d).2 u0 := by
        simp only [importStep, hu0]
        unfold upsertSummary
        cases hf1 : db.sdk_sessions.find?
            (sessionMemoryMatch u0.memory_session_id) with
        | none =>
            refine ⟨rfl, rfl, rfl, fun r hr => hr, Or.inl ?_⟩
            intro r hr
            have := List.find?_eq_none.mp hf1 r hr
            simpa using this
        | some x =>
            cases hf2 : db.session_summaries.find? (summaryDedupMatch u0) with
            | some y =>
                exact ⟨rfl, rfl, rfl, fun r hr => hr,
                  Or.inr ⟨y, List.mem_of_find?_eq_some hf2, List.find?_some hf2⟩⟩
            | none =>
                refine ⟨rfl, rfl, rfl, fun r hr => List.mem_append_left _ hr,
                  Or.inr ⟨insertedSummaryRow db.session_summaries u0,
                    List.mem_append_right _ (by simp), ?_⟩⟩
                simp [summaryDedupMatch, insertedSummaryRow]
      rcases ih (importStep db d).2 (fun x hx => h x (List.mem_cons_of_mem _ hx)) with
        ⟨i1, i2, i3, i4, i5⟩
      simp only [runDocs]
      refine ⟨?_, ?_, ?_, ?_, ?_⟩
      · rw [i1, hstep.1]
      · rw [i2, hstep.2.1]
      · rw [i3, hstep.2.2.1]
      · intro r hr
        exact i4 r (hstep.2.2.2.1 r hr)
      · intro x hx u hp
        rcases List.mem_cons.mp hx with hx1 | hx1
        · subst hx1
          have huu : u = u0 := by
            rw [hu0] at hp
            injection hp with he
            exact he.symm
          subst huu
          exact summaryHandled_mono hstep.2.2.2.2 i1 i4
        · exact i5 x hx1 u hp

/-- Claim C2 counterexample: a batch with two session documents for the same
`content_session_id` carrying different `custom_title` values makes the
second run of the importer write rows again (each document flips the stored
title back), refuting the claim that a second import of any batch writes
zero rows. -/
theorem import_twice_counterexample :
    (importRemoteDocuments
        (importRemoteDocuments emptyLocalDb exampleConflictBatch).2
        exampleConflictBatch).1 ≠ 0 := by
  decide

/-- Claim C2 (amended): for every batch containing at most one session
document, running the importer twice over the same batch on the same local
store writes zero rows the second time and leaves every table unchanged.
(When the batch carries several session documents the second run can rewrite
session rows, as the counterexample shows; prompt, observation and summary
imports stay inert either way.) -/
theorem import_twice_writes_nothing (db : LocalDb)
    (documents : List RemoteMemoryDocument)
    (hone : (documents.filter isSessionDoc).length ≤ 1) :
    importRemoteDocuments (importRemoteDocuments db documents).2 documents =
      (0, (importRemoteDocuments db documents).2) := by
  have hassoc : orderDocuments documents =
      documents.filter isSessionDoc ++ (documents.filter isPromptDoc ++
        (documents.filter isObservationDoc ++ documents.filter isSummaryDoc)) := by
    simp [orderDocuments, List.append_assoc]
  have hSmem : ∀ d ∈ documents.filter isSessionDoc, isSessionDoc d = true :=
    fun d hd => (List.mem_filter.mp hd).2
  have hPmem : ∀ d ∈ documents.filter isPromptDoc, isPromptDoc d = true :=
    fun d hd => (List.mem_filter.mp hd).2
  have hObmem : ∀ d ∈ documents.filter isObservationDoc, isObservationDoc d = true :=
    fun d hd => (List.mem_filter.mp hd).2
  have hUmem : ∀ d ∈ documents.filter isSummaryDoc, isSummaryDoc d = true :=
    fun d hd => (List.mem_filter.mp hd).2
  unfold importRemoteDocuments
  rw [hassoc]
  set S := documents.filter isSessionDoc with hS
  set P := documents.filter isPromptDoc with hP
  set Ob := documents.filter isObservationDoc with hOb
  set U := documents.filter isSummaryDoc with hU
  set dbS := (runDocs db S).2 with hdbS
  set dbP := (runDocs dbS P).2 with hdbP
  set dbO := (runDocs dbP Ob).2 with hdbO
  set db1 := (runDocs dbO U).2 with hdb1
  have hsplit : ∀ dbx : LocalDb, (runDocs dbx (S ++ (P ++ (Ob ++ U)))).2 =
      (runDocs (runDocs (runDocs (runDocs dbx S).2 P).2 Ob).2 U).2 := by
    intro dbx
    simp only [runDocs_append]
  have hrun1 : (runDocs db (S ++ (P ++ (Ob ++ U)))).2 = db1 := by
    rw [hsplit db, ← hdbS, ← hdbP, ← hdbO, ← hdb1]
  rcases runDocs_promptPhase P dbS hPmem with ⟨p1, p2, p3, p4, p5⟩
  rw [← hdbP] at p1 p2 p3 p4 p5
  rcases runDocs_observationPhase Ob dbP hObmem with ⟨o1, o2, o3, o4, o5⟩
  rw [← hdbO] at o1 o2 o3 o4 o5
  rcases runDocs_summaryPhase U dbO hUmem with ⟨u1, u2, u3, u4, u5⟩
  rw [← hdb1] at u1 u2 u3 u4 u5
  have hses1 : db1.sdk_sessions = dbS.sdk_sessions := by rw [u1, o1, p1]
  have hprompts1 : db1.user_prompts = dbP.user_prompts := by rw [u2, o2]
  have hobs1 : db1.observations = dbO.observations := u3
  have hS2 : runDocs db1 S = (0, db1) := by
    cases hSS : S with
    | nil => rfl
    | cons sdoc stail =>
        have hstail : stail = [] := by
          rw [hSS] at hone
          cases stail with
          | nil => rfl
          | cons a t => simp at hone
        subst hstail
        obtain ⟨sp, hsp⟩ := isSessionDoc_payload (hSmem sdoc (by rw [hSS]; simp))
        have hdbSses : dbS.sdk_sessions = (upsertSessionRows db.sdk_sessions sp).2 := by
          rw [hdbS, hSS]
          simp [runDocs, importStep, hsp, upsertSession]
        have hnoop : upsertSession db1 sp = (false, db1) :=
          upsertSession_noop_of_rows db.sdk_sessions sp db1 (by rw [hses1, hdbSses])
        simp [runDocs, importStep, hsp, hnoop]
  have hP2 : runDocs db1 P = (0, db1) := by
    apply runDocs_noop
    intro d hd
    obtain ⟨p, hp⟩ := isPromptDoc_payload (hPmem d hd)
    have hh : promptHandled dbP p := p5 d hd p hp
    have hh1 : promptHandled db1 p :=
      promptHandled_mono hh (hses1.trans p1.symm)
        (fun r hr => by rw [hprompts1]; exact hr)
    simp [importStep, hp, upsertPrompt_noop db1 p hh1]
  have hOb2 : runDocs db1 Ob = (0, db1) := by
    apply runDocs_noop
    intro d hd
    obtain ⟨o, ho⟩ := isObservationDoc_payload (hObmem d hd)
    have hh : observationHandled dbO o := o5 d hd o ho
    have hh1 : observationHandled db1 o :=
      observationHandled_mono hh u1 (fun r hr => by rw [hobs1]; exact hr)
    simp [importStep, ho, upsertObservation_noop db1 o hh1]
  have hU2 : runDocs db1 U = (0, db1) := by
    apply runDocs_noop
    intro d hd
    obtain ⟨u, hu⟩ := isSummaryDoc_payload (hUmem d hd)
    have hh1 : summaryHandled db1 u := u5 d hd u hu
    simp [importStep, hu, upsertSummary_noop db1 u hh1]
  rw [hrun1]
  simp [runDocs_append, hS2, hP2, hOb2, hU2]

theorem import_twice_writes_nothing_witness :
    (([exampleSessionDocTitled (some "A")].filter isSessionDoc).length ≤ 1) ∧
    importRemoteDocuments
        (importRemoteDocuments exampleDb [exampleSessionDocTitled (some "A")]).2
        [exampleSessionDocTitled (some "A")] =
      (0, (importRemoteDocuments exampleDb [exampleSessionDocTitled (some "A")]).2) :=
  ⟨by decide, import_twice_writes_nothing exampleDb
    [exampleSessionDocTitled (some "A")] (by decide)⟩
